import Mathlib

/-!
Verification of the BlueALSA PCM multi-client mixer (bluez-alsa).

Shallow embedding of src/bluealsa-mix-buffer.c, src/bluealsa-pcm-client.c
and src/bluealsa-pcm-multi.c, together with theorems settling the
specification claims about them.

Modeling conventions:
* size_t values are Nat, ssize_t / intmax_t values are Int.
* The C ring-index computations rely on unsigned wraparound
  (the rewind start -= buffer->size fires while start may be smaller than
  size).  Those index computations are modeled in exact Int arithmetic,
  which agrees with mod-2^64 machine arithmetic whenever every
  intermediate value is within 2^63 of zero, as is the case on every
  execution considered here.
* C arrays are modeled as total functions Nat -> Int; a store is a
  pointwise functional update.
* double is modeled as Rat; the conversion of a floating product back to
  an integer variable is modeled as truncation toward zero.
-/

namespace BlueAlsa

/-- Design constant BLUEALSA_MULTI_MIX_THRESHOLD (bluealsa-pcm-multi.h line 25). -/
def BLUEALSA_MULTI_MIX_THRESHOLD : Nat := 4

/-- Design constant BLUEALSA_MULTI_CLIENT_THRESHOLD (bluealsa-pcm-multi.h line 28). -/
def BLUEALSA_MULTI_CLIENT_THRESHOLD : Nat := 2

/-- Design constant BLUEALSA_MULTI_BUFFER_PERIODS (bluealsa-pcm-multi.c line 42). -/
def BLUEALSA_MULTI_BUFFER_PERIODS : Nat := 16

/-- The four supported transport PCM sample formats (ba-transport-pcm.h). -/
inductive PcmFormat
| u8
| s16_2le
| s24_4le
| s32_4le
deriving DecidableEq

/-- Two's-complement interpretation of the low bits of a machine word:
the value of a signed integer of the given width whose unsigned
representation is w (mod 2^bits). -/
def signed_of_word (bits : Nat) (w : Nat) : Int :=
  if w % 2 ^ bits < 2 ^ (bits - 1) then ((w % 2 ^ bits : Nat) : Int)
  else ((w % 2 ^ bits : Nat) : Int) - 2 ^ bits

/-- Conversion of a signed value to an unsigned machine word of the given
width, i.e. a C cast such as (uint32_t)x. -/
def uint_of_int (bits : Nat) (x : Int) : Nat := (x % 2 ^ bits).toNat

/-- State of struct bluealsa_mix_buffer (bluealsa-mix-buffer.h).  The field
end of the C struct is called endOff here because end is a Lean keyword.
The accumulator storage data is one widened cell per sample slot. -/
structure MixBuffer where
  format : PcmFormat
  channels : Nat
  frame_size : Nat
  size : Nat
  period : Nat
  mix_offset : Nat
  endOff : Nat
  data : Nat → Int

/-- bluealsa_mix_buffer_calc_avail: number of samples readable from start
to endv, wrap-aware (bluealsa-mix-buffer.c lines 117-122). -/
def bluealsa_mix_buffer_calc_avail (b : MixBuffer) (start endv : Nat) : Nat :=
  if start ≤ endv then endv - start
  else b.size + endv - start

/-- bluealsa_mix_buffer_empty (bluealsa-mix-buffer.c lines 126-128). -/
def bluealsa_mix_buffer_empty (b : MixBuffer) : Bool :=
  b.mix_offset = b.endOff

/-- bluealsa_mix_buffer_delay (bluealsa-mix-buffer.c lines 133-135).  The C
parameter is size_t; a negative ssize_t argument is converted mod 2^64. -/
def bluealsa_mix_buffer_delay (b : MixBuffer) (offset : Int) : Nat :=
  bluealsa_mix_buffer_calc_avail b b.mix_offset (uint_of_int 64 offset)

/-- bluealsa_mix_buffer_at_threshold (bluealsa-mix-buffer.c lines 137-140):
avail >= BLUEALSA_MULTI_MIX_THRESHOLD * period / channels. -/
def bluealsa_mix_buffer_at_threshold (b : MixBuffer) : Bool :=
  BLUEALSA_MULTI_MIX_THRESHOLD * b.period / b.channels ≤
    bluealsa_mix_buffer_calc_avail b b.mix_offset b.endOff

/-- Decoding of one raw little-endian source word into the widened
accumulator increment used by bluealsa_mix_buffer_add (the per-format
switch in bluealsa-mix-buffer.c lines 181-202 and the BA_x_TO_INT macros). -/
def mix_decode : PcmFormat → Nat → Int
| .u8, w => ((w % 2 ^ 8 : Nat) : Int) - 0x80
| .s16_2le, w => signed_of_word 16 w
| .s24_4le, w =>
    if 2 ^ 23 ≤ w % 2 ^ 24 then signed_of_word 32 (0xFF000000 + w % 2 ^ 24)
    else signed_of_word 32 w
| .s32_4le, w => signed_of_word 32 w

/-- The per-sample loop of bluealsa_mix_buffer_add (bluealsa-mix-buffer.c
lines 177-203): rem is the number of samples still to process (the C loop
runs for n from its current value while n < samples, so rem = samples - n
at entry); each step rewinds start by size once start + n reaches size and
adds the decoded source sample into the accumulator cell at index
start + n. -/
def mix_add_loop (size : Nat) (val : Nat → Int) :
    Nat → Int → Nat → (Nat → Int) → Int × (Nat → Int)
| 0, start, _, data => (start, data)
| rem + 1, start, n, data =>
    let start2 : Int := if (size : Int) ≤ start + n then start - size else start
    let idx : Nat := (start2 + n).toNat
    let data2 : Nat → Int := fun j => if j = idx then data j + val n else data j
    mix_add_loop size val rem start2 (n + 1) data2

/-- Result of bluealsa_mix_buffer_add: the updated buffer, the updated
client cursor (the in/out parameter offset) and the returned byte count. -/
structure AddResult where
  buffer : MixBuffer
  offset : Int
  ret : Nat

/-- The start position used by bluealsa_mix_buffer_add after resolving a
negative (relative) cursor and un-wrapping a position behind mix_offset
(bluealsa-mix-buffer.c lines 158-170). -/
def mix_add_resolved_start (b : MixBuffer) (offset : Int) : Int :=
  let start0 : Int := if offset < 0 then (b.mix_offset : Int) - offset else offset
  if start0 < (b.mix_offset : Int) then start0 + b.size else start0

/-- The back-pressure limit of bluealsa_mix_buffer_add: mix_offset plus
(MIX_THRESHOLD + 1) periods (bluealsa-mix-buffer.c line 171). -/
def mix_add_limit (b : MixBuffer) : Int :=
  (b.mix_offset : Int) + (BLUEALSA_MULTI_MIX_THRESHOLD + 1) * b.period

/-- The sample count fed to the mix by bluealsa_mix_buffer_add: the input
truncated to whole frames, clipped to the room left below the
back-pressure limit (bluealsa-mix-buffer.c lines 163-175). -/
def mix_add_samples2 (b : MixBuffer) (offset : Int) (bytes : Nat) : Nat :=
  let samples := bytes / b.frame_size * b.channels
  if mix_add_limit b < mix_add_resolved_start b offset + samples
  then (mix_add_limit b - mix_add_resolved_start b offset).toNat
  else samples

/-- bluealsa_mix_buffer_add (bluealsa-mix-buffer.c lines 152-214).  The
client source byte stream is modeled as the sequence src of raw
little-endian sample words together with its length in bytes. -/
def bluealsa_mix_buffer_add (b : MixBuffer) (offset : Int)
    (src : Nat → Nat) (bytes : Nat) : AddResult :=
  let avail := bluealsa_mix_buffer_calc_avail b b.mix_offset b.endOff
  let start1 : Int := mix_add_resolved_start b offset
  if mix_add_limit b ≤ start1 then
    { buffer := b, offset := offset, ret := 0 }
  else
    let samples2 := mix_add_samples2 b offset bytes
    let r := mix_add_loop b.size (fun n => mix_decode b.format (src n)) samples2 start1 0 b.data
    let offset2 : Int := r.1 + samples2
    let endOff2 : Nat :=
      if avail < bluealsa_mix_buffer_calc_avail b b.mix_offset (offset2.toNat) then offset2.toNat
      else b.endOff
    { buffer := { b with endOff := endOff2, data := r.2 },
      offset := offset2,
      ret := samples2 * b.frame_size / b.channels }

/-- Back-pressure branch of add: nothing changes and 0 is returned. -/
theorem mix_add_of_le (b : MixBuffer) (offset : Int) (src : Nat → Nat) (bytes : Nat)
    (h : mix_add_limit b ≤ mix_add_resolved_start b offset) :
    bluealsa_mix_buffer_add b offset src bytes = { buffer := b, offset := offset, ret := 0 } := by
  simp [bluealsa_mix_buffer_add, h]

/-- The byte count returned by add below the limit. -/
theorem mix_add_ret (b : MixBuffer) (offset : Int) (src : Nat → Nat) (bytes : Nat)
    (h : ¬ mix_add_limit b ≤ mix_add_resolved_start b offset) :
    (bluealsa_mix_buffer_add b offset src bytes).ret =
      mix_add_samples2 b offset bytes * b.frame_size / b.channels := by
  simp [bluealsa_mix_buffer_add, h]

/-- The cursor stored back by add below the limit. -/
theorem mix_add_offset (b : MixBuffer) (offset : Int) (src : Nat → Nat) (bytes : Nat)
    (h : ¬ mix_add_limit b ≤ mix_add_resolved_start b offset) :
    (bluealsa_mix_buffer_add b offset src bytes).offset =
      (mix_add_loop b.size (fun n => mix_decode b.format (src n))
          (mix_add_samples2 b offset bytes) (mix_add_resolved_start b offset) 0 b.data).1 +
        mix_add_samples2 b offset bytes := by
  simp [bluealsa_mix_buffer_add, h]

/-- add never changes the geometry or the read-side cursor of the buffer. -/
theorem mix_add_buffer_fields (b : MixBuffer) (offset : Int) (src : Nat → Nat) (bytes : Nat) :
    (bluealsa_mix_buffer_add b offset src bytes).buffer.mix_offset = b.mix_offset ∧
    (bluealsa_mix_buffer_add b offset src bytes).buffer.size = b.size ∧
    (bluealsa_mix_buffer_add b offset src bytes).buffer.period = b.period ∧
    (bluealsa_mix_buffer_add b offset src bytes).buffer.channels = b.channels ∧
    (bluealsa_mix_buffer_add b offset src bytes).buffer.frame_size = b.frame_size ∧
    (bluealsa_mix_buffer_add b offset src bytes).buffer.format = b.format := by
  unfold bluealsa_mix_buffer_add
  dsimp only
  split <;> exact ⟨rfl, rfl, rfl, rfl, rfl, rfl⟩

/-- Truncating conversion of the floating-point product x * q back into an
integer variable (C: integer *= double truncates toward zero). -/
def double_mul_int (x : Int) (q : Rat) : Int :=
  if 0 ≤ (x : Rat) * q then ⌊(x : Rat) * q⌋ else ⌈(x : Rat) * q⌉

/-- Saturation as written in read: clip above then below. -/
def clamp (lo hi x : Int) : Int :=
  if hi < x then hi else if x < lo then lo else x

/-- BLUEALSA_24BIT_MIN (bluealsa-mix-buffer.c line 25). -/
def BLUEALSA_24BIT_MIN : Int := -(2 ^ 23)

/-- BLUEALSA_24BIT_MAX (bluealsa-mix-buffer.c line 26). -/
def BLUEALSA_24BIT_MAX : Int := 2 ^ 23 - 1

/-- Per-channel sample value after the scale and saturate steps of
bluealsa_mix_buffer_read (the body of each per-format channel loop
before the store into dest): zero when scale is 0.0, otherwise the
scaled accumulator clipped to the format range.  The S16 case skips the
multiplication when scale >= 0.99. -/
def mix_scale_sample : PcmFormat → Rat → Int → Int
| .u8, q, a => if q = 0 then 0 else clamp (-(2 ^ 7)) (2 ^ 7 - 1) (double_mul_int a q)
| .s16_2le, q, a =>
    if q = 0 then 0
    else clamp (-(2 ^ 15)) (2 ^ 15 - 1)
      (if q < (99 / 100 : Rat) then double_mul_int a q else a)
| .s24_4le, q, a => if q = 0 then 0 else clamp BLUEALSA_24BIT_MIN BLUEALSA_24BIT_MAX (double_mul_int a q)
| .s32_4le, q, a => if q = 0 then 0 else clamp (-(2 ^ 31)) (2 ^ 31 - 1) (double_mul_int a q)

/-- The raw little-endian word stored into the output buffer dest for one
sample (the store expressions of bluealsa_mix_buffer_read): U8 stores
0x80 + (int8_t)(uint8_t)s into a byte, S16 stores the uint16 pattern of
s, S24_4LE packs via BA_INT32_TO_S24_4LE, S32 stores the uint32 pattern. -/
def mix_pack_word : PcmFormat → Int → Nat
| .u8, s => uint_of_int 8 (0x80 + signed_of_word 8 (uint_of_int 8 s))
| .s16_2le, s => uint_of_int 16 s
| .s24_4le, s => uint_of_int 32 s / 2 ^ 31 * 2 ^ 23 + uint_of_int 32 s % 2 ^ 23
| .s32_4le, s => uint_of_int 32 s

/-- One output word of bluealsa_mix_buffer_read: scale, saturate, pack. -/
def mix_out_word (fmt : PcmFormat) (q : Rat) (a : Int) : Nat :=
  mix_pack_word fmt (mix_scale_sample fmt q a)

/-- The per-frame loop of bluealsa_mix_buffer_read (bluealsa-mix-buffer.c
lines 242-333): rem is the number of frames still to process (the C loop
runs for n from 0 in steps of channels while n < samples, i.e. for
ceil(samples / channels) iterations); each step rewinds start by size once
start + n reaches size, then for each channel emits the scaled saturated
packed sample and zeroes the accumulator cell.  Returns the final start,
the final n, the accumulator contents and the emitted words. -/
def mix_read_loop (fmt : PcmFormat) (channels size : Nat) (scale : Nat → Rat) :
    Nat → Int → Nat → (Nat → Int) → List Nat → Int × Nat × (Nat → Int) × List Nat
| 0, start, n, data, out => (start, n, data, out)
| rem + 1, start, n, data, out =>
    let start2 : Int := if (size : Int) ≤ start + n then start - size else start
    let base : Nat := (start2 + n).toNat
    let out2 : List Nat :=
      out ++ (List.range channels).map (fun ch => mix_out_word fmt (scale ch) (data (base + ch)))
    let data2 : Nat → Int := fun j => if base ≤ j ∧ j < base + channels then 0 else data j
    mix_read_loop fmt channels size scale rem start2 (n + channels) data2 out2

/-- Result of bluealsa_mix_buffer_read: the updated buffer, the packed
output words and the returned sample count. -/
structure ReadResult where
  buffer : MixBuffer
  out : List Nat
  ret : Nat

/-- The sample count delivered by bluealsa_mix_buffer_read: the request
clipped to whole frames, then to one period, then to the available
samples (bluealsa-mix-buffer.c lines 230-239). -/
def mix_read_samples3 (b : MixBuffer) (samples : Nat) : Nat :=
  let samples1 := samples - samples % b.channels
  let samples2 := if b.period < samples1 then b.period else samples1
  let avail := bluealsa_mix_buffer_calc_avail b b.mix_offset b.endOff
  if avail < samples2 then avail else samples2

/-- bluealsa_mix_buffer_read (bluealsa-mix-buffer.c lines 226-338). -/
def bluealsa_mix_buffer_read (b : MixBuffer) (samples : Nat) (scale : Nat → Rat) : ReadResult :=
  let samples3 := mix_read_samples3 b samples
  let r := mix_read_loop b.format b.channels b.size scale
    ((samples3 + b.channels - 1) / b.channels) (b.mix_offset : Int) 0 b.data []
  { buffer := { b with mix_offset := (r.1 + r.2.1).toNat, data := r.2.2.1 },
    out := r.2.2.2,
    ret := samples3 }

/-- bluealsa_mix_buffer_clear (bluealsa-mix-buffer.c lines 340-360). -/
def bluealsa_mix_buffer_clear (b : MixBuffer) : MixBuffer :=
  { b with mix_offset := 0, endOff := 0, data := fun _ => 0 }

/-! ## Client model (bluealsa-pcm-client.c) -/

/-- enum bluealsa_pcm_client_state. -/
inductive ClientState
| init
| idle
| running
| paused
| draining1
| draining2
| finished
deriving DecidableEq

/-- Transport PCM mode: BA_TRANSPORT_PCM_MODE_SINK is playback,
BA_TRANSPORT_PCM_MODE_SOURCE is capture. -/
inductive PcmMode
| sink
| source
deriving DecidableEq

/-- Replies written to the client control socket. -/
inductive CtrlReply
| ok
| invalid
deriving DecidableEq

/-- The fields of struct bluealsa_pcm_client that the modeled code touches.
pcm_open / control_open model whether pcm_fd / control_fd are not -1;
drain_armed models whether the drain timerfd is armed; replies collects
the control-socket replies written so far, in order. -/
structure Client where
  state : ClientState
  in_offset : Nat
  out_offset : Int
  drain_avail : Nat
  buffer_size : Nat
  drop : Bool
  watch : Bool
  pcm_open : Bool
  control_open : Bool
  drain_armed : Bool
  replies : List CtrlReply
deriving DecidableEq

/-- The fields of struct bluealsa_pcm_multi that the client code touches:
the transport mode, the active client count and (for playback) the mix
buffer, plus period_bytes. -/
structure MultiC where
  mode : PcmMode
  active_count : Int
  period_bytes : Nat
  playback_buffer : MixBuffer

/-- bluealsa_pcm_client_is_playback. -/
def bluealsa_pcm_client_is_playback (m : MultiC) : Bool := m.mode = PcmMode.sink

/-- bluealsa_pcm_client_is_capture. -/
def bluealsa_pcm_client_is_capture (m : MultiC) : Bool := m.mode = PcmMode.source

/-- SIZE_MAX, the value of (size_t)-1. -/
def SIZE_MAX : Nat := 2 ^ 64 - 1

/-- bluealsa_pcm_client_playback_init_offset (bluealsa-pcm-client.c lines
47-50): MIX_THRESHOLD * period - in_offset * channels / frame_size, in
size_t arithmetic (mod 2^64). -/
def bluealsa_pcm_client_playback_init_offset (m : MultiC) (c : Client) : Nat :=
  uint_of_int 64
    ((BLUEALSA_MULTI_MIX_THRESHOLD * m.playback_buffer.period : Int) -
      (c.in_offset * m.playback_buffer.channels / m.playback_buffer.frame_size : Nat))

/-- bluealsa_pcm_client_set_state (bluealsa-pcm-client.c lines 54-95):
perform the side effects associated with a state change and record the
new state.  Note the early return in the RUNNING case when the previous
state is DRAINING1: the state is left unchanged there. -/
def bluealsa_pcm_client_set_state (m : MultiC) (c : Client) (new_state : ClientState) :
    MultiC × Client :=
  if new_state = c.state then (m, c)
  else
    match new_state with
    | .idle =>
        let c := { c with drain_avail := SIZE_MAX }
        if c.state = .running ∨ c.state = .draining1 then
          ({ m with active_count := m.active_count - 1 }, { c with state := new_state })
        else (m, { c with state := new_state })
    | .finished =>
        if c.state = .running ∨ c.state = .draining1 then
          ({ m with active_count := m.active_count - 1 }, { c with state := new_state })
        else (m, { c with state := new_state })
    | .paused =>
        if c.state = .running ∧ bluealsa_pcm_client_is_capture m then
          ({ m with active_count := m.active_count - 1 }, { c with state := new_state })
        else (m, { c with state := new_state })
    | .running =>
        if bluealsa_pcm_client_is_capture m then
          if c.state = .idle ∨ c.state = .init ∨ c.state = .paused then
            ({ m with active_count := m.active_count + 1 }, { c with state := new_state })
          else (m, { c with state := new_state })
        else
          if c.state = .idle then
            let c := { c with out_offset := -(bluealsa_pcm_client_playback_init_offset m c : Int) }
            ({ m with active_count := m.active_count + 1 }, { c with state := new_state })
          else if c.state = .draining1 then
            (m, c)
          else (m, { c with state := new_state })
    | .draining1 => (m, { c with state := new_state })
    | .draining2 =>
        if c.state = .draining1 then
          ({ m with active_count := m.active_count - 1 }, { c with state := new_state })
        else (m, { c with state := new_state })
    | .init => (m, { c with state := new_state })

/-- bluealsa_pcm_client_close_pcm (bluealsa-pcm-client.c lines 99-106). -/
def bluealsa_pcm_client_close_pcm (c : Client) : Client :=
  if c.pcm_open then { c with watch := false, pcm_open := false } else c

/-- bluealsa_pcm_client_close_control (bluealsa-pcm-client.c lines 110-117). -/
def bluealsa_pcm_client_close_control (c : Client) : Client :=
  if c.control_open then { c with control_open := false } else c

/-- bluealsa_pcm_client_watch_pcm (bluealsa-pcm-client.c lines 121-133). -/
def bluealsa_pcm_client_watch_pcm (c : Client) (enabled : Bool) : Client :=
  if c.watch = enabled then c else { c with watch := enabled }

/-- bluealsa_pcm_client_watch_drain (bluealsa-pcm-client.c lines 137-146):
arm or disarm the drain timer. -/
def bluealsa_pcm_client_watch_drain (c : Client) (enabled : Bool) : Client :=
  { c with drain_armed := enabled }

/-- Result of the read(2) on the client pipe as seen after the EINTR retry
loop of bluealsa_pcm_client_read: some data, end of file, or EAGAIN. -/
inductive PipeRead
| data (n : Nat)
| closed
| eagain
deriving DecidableEq

/-- bluealsa_pcm_client_read (bluealsa-pcm-client.c lines 151-175): fill
the tail of the client byte buffer from the pipe.  Returns the updated
client and the C return value (bytes read, 0, or -1 on EOF). -/
def bluealsa_pcm_client_read (c : Client) (r : PipeRead) : Client × Int :=
  let space := c.buffer_size - c.in_offset
  if space = 0 then (c, 0)
  else
    match r with
    | .closed => (c, -1)
    | .eagain => (c, 0)
    | .data n => ({ c with in_offset := c.in_offset + n }, (n : Nat))

/-- Result of one write(2) attempt on a capture client pipe. -/
inductive PipeWrite
| wrote (n : Nat)
| eintr
| eagain
| err
deriving DecidableEq

/-- The retry loop of bluealsa_pcm_client_write (bluealsa-pcm-client.c
lines 186-212), driven by the list of successive syscall outcomes: on
EINTR retry, on EAGAIN pretend the whole remainder was written (frames
are dropped), on any other error close the pipe and go FINISHED.  If the
outcome list is exhausted with bytes still pending, the remaining client
is returned as is (such a trace is a partial execution). -/
def bluealsa_pcm_client_write_loop (m : MultiC) (c : Client) (len : Nat) :
    List PipeWrite → MultiC × Client
| [] => (m, c)
| r :: rs =>
    if len = 0 then (m, c)
    else
      match r with
      | .wrote n => bluealsa_pcm_client_write_loop m c (len - n) rs
      | .eintr => bluealsa_pcm_client_write_loop m c len rs
      | .eagain => (m, c)
      | .err =>
          let c := bluealsa_pcm_client_close_pcm c
          bluealsa_pcm_client_set_state m c .finished

/-- bluealsa_pcm_client_write (bluealsa-pcm-client.c lines 180-214). -/
def bluealsa_pcm_client_write (m : MultiC) (c : Client) (len : Nat)
    (rs : List PipeWrite) : MultiC × Client :=
  if len = 0 then (m, c) else bluealsa_pcm_client_write_loop m c len rs

/-- The tail of bluealsa_pcm_client_deliver (bluealsa-pcm-client.c lines
248-257): if the client buffer holds bytes, feed them to the mix; if any
were consumed, shift the buffer and re-enable the pipe watch.  The mix add
updates client->out_offset through its pointer argument in every case in
which it passes the back-pressure check. -/
def bluealsa_pcm_client_deliver_mix (m : MultiC) (c : Client) (src : Nat → Nat) :
    MultiC × Client :=
  if 0 < c.in_offset then
    let a := bluealsa_mix_buffer_add m.playback_buffer c.out_offset src c.in_offset
    let m := { m with playback_buffer := a.buffer }
    let c := { c with out_offset := a.offset }
    if 0 < a.ret then
      (m, bluealsa_pcm_client_watch_pcm { c with in_offset := c.in_offset - a.ret } true)
    else (m, c)
  else (m, c)

/-- bluealsa_pcm_client_deliver (bluealsa-pcm-client.c lines 218-258).
The pipe behavior for the opportunistic read in DRAINING1 is the
parameter r; the client buffer contents are the abstract word sequence
src. -/
def bluealsa_pcm_client_deliver (m : MultiC) (c : Client) (src : Nat → Nat)
    (r : PipeRead) : MultiC × Client :=
  if c.state ≠ .running ∧ c.state ≠ .draining1 then (m, c)
  else if c.state = .draining1 then
    let rr := bluealsa_pcm_client_read c r
    let c1 := rr.1
    if rr.2 < 0 then
      bluealsa_pcm_client_set_state m (bluealsa_pcm_client_close_pcm c1) .finished
    else if c1.in_offset = 0 ∧ rr.2 = 0 ∧ r = .eagain then
      let mix_avail := bluealsa_mix_buffer_calc_avail m.playback_buffer
        m.playback_buffer.mix_offset (uint_of_int 64 c1.out_offset)
      if mix_avail = 0 ∨ c1.drain_avail < mix_avail then
        let mc := bluealsa_pcm_client_set_state m c1 .draining2
        (mc.1, bluealsa_pcm_client_watch_drain mc.2 true)
      else
        bluealsa_pcm_client_deliver_mix m { c1 with drain_avail := mix_avail } src
    else
      bluealsa_pcm_client_deliver_mix m c1 src
  else
    bluealsa_pcm_client_deliver_mix m c src

/-- bluealsa_pcm_client_handle_playback_pcm (bluealsa-pcm-client.c lines
262-281). -/
def bluealsa_pcm_client_handle_playback_pcm (m : MultiC) (c : Client)
    (r : PipeRead) : MultiC × Client :=
  let rr := bluealsa_pcm_client_read c r
  let c1 := rr.1
  if rr.2 < 0 then
    bluealsa_pcm_client_set_state m (bluealsa_pcm_client_close_pcm c1) .finished
  else
    let c2 := if rr.2 = 0 then bluealsa_pcm_client_watch_pcm c1 false else c1
    if c2.state = .idle ∧ BLUEALSA_MULTI_CLIENT_THRESHOLD * m.period_bytes < c2.in_offset then
      bluealsa_pcm_client_set_state m c2 .running
    else (m, c2)

/-- bluealsa_pcm_client_begin_drain (bluealsa-pcm-client.c lines 287-298). -/
def bluealsa_pcm_client_begin_drain (m : MultiC) (c : Client) : MultiC × Client :=
  if bluealsa_pcm_client_is_playback m ∧ c.state = .running then
    let mc := bluealsa_pcm_client_set_state m c .draining1
    (mc.1, bluealsa_pcm_client_watch_pcm mc.2 false)
  else
    (m, { c with replies := c.replies ++ [CtrlReply.ok] })

/-- bluealsa_pcm_client_drop (bluealsa-pcm-client.c lines 302-311): for a
playback client, disarm the drain timer, discard the pipe contents, reset
in_offset, go IDLE and raise the drop flag. -/
def bluealsa_pcm_client_drop (m : MultiC) (c : Client) : MultiC × Client :=
  if bluealsa_pcm_client_is_playback m then
    let c := bluealsa_pcm_client_watch_drain c false
    let c := { c with in_offset := 0 }
    let mc := bluealsa_pcm_client_set_state m c .idle
    (mc.1, { mc.2 with drop := true })
  else (m, c)

/-- bluealsa_pcm_client_pause (bluealsa-pcm-client.c lines 315-323). -/
def bluealsa_pcm_client_pause (m : MultiC) (c : Client) : MultiC × Client :=
  let mc := bluealsa_pcm_client_set_state m c .paused
  let m := mc.1
  let c := bluealsa_pcm_client_watch_pcm mc.2 false
  if bluealsa_pcm_client_is_playback m then
    (m, { c with out_offset := -(bluealsa_mix_buffer_delay m.playback_buffer c.out_offset : Int) })
  else (m, c)

/-- bluealsa_pcm_client_resume (bluealsa-pcm-client.c lines 327-342). -/
def bluealsa_pcm_client_resume (m : MultiC) (c : Client) : MultiC × Client :=
  let mc :=
    if c.state = .idle then
      if bluealsa_pcm_client_is_playback m then
        (m, { (bluealsa_pcm_client_watch_pcm c true) with drop := false })
      else
        bluealsa_pcm_client_set_state m c .running
    else (m, c)
  let m := mc.1
  let c := mc.2
  if c.state = .paused then
    let mc2 := bluealsa_pcm_client_set_state m c .running
    if bluealsa_pcm_client_is_playback mc2.1 then
      (mc2.1, bluealsa_pcm_client_watch_pcm mc2.2 true)
    else mc2
  else (m, c)

/-- bluealsa_pcm_client_handle_drain (bluealsa-pcm-client.c lines
346-357): the drain timer handler.  Only acts when the client is in
DRAINING2; it then goes IDLE, disarms the timer, re-enables the pipe
watch, resets in_offset and sends the deferred OK. -/
def bluealsa_pcm_client_handle_drain (m : MultiC) (c : Client) : MultiC × Client :=
  if c.state ≠ .draining2 then (m, c)
  else
    let mc := bluealsa_pcm_client_set_state m c .idle
    let c := bluealsa_pcm_client_watch_drain mc.2 false
    let c := bluealsa_pcm_client_watch_pcm c true
    let c := { c with in_offset := 0 }
    (mc.1, { c with replies := c.replies ++ [CtrlReply.ok] })

/-- The recognized control commands (BLUEALSA_PCM_CTRL_x); unknown covers
every other received string. -/
inductive CtrlCmd
| drain
| drop
| pause
| resume
| unknown
deriving DecidableEq

/-- The pre-dispatch step of bluealsa_pcm_client_handle_control
(bluealsa-pcm-client.c lines 379-385): if the client is in DRAINING1 or
DRAINING2 when a command arrives, the drain complete handler is invoked
before the command is processed. -/
def bluealsa_pcm_client_control_predrain (m : MultiC) (c : Client) : MultiC × Client :=
  if c.state = .draining1 ∨ c.state = .draining2 then
    bluealsa_pcm_client_handle_drain m c
  else (m, c)

/-- The command dispatch of bluealsa_pcm_client_handle_control
(bluealsa-pcm-client.c lines 387-405). -/
def bluealsa_pcm_client_control_dispatch (m : MultiC) (c : Client) (cmd : CtrlCmd) :
    MultiC × Client :=
  match cmd with
  | .drain => bluealsa_pcm_client_begin_drain m c
  | .drop =>
      let mc := bluealsa_pcm_client_drop m c
      (mc.1, { mc.2 with replies := mc.2.replies ++ [CtrlReply.ok] })
  | .pause =>
      let mc := bluealsa_pcm_client_pause m c
      (mc.1, { mc.2 with replies := mc.2.replies ++ [CtrlReply.ok] })
  | .resume =>
      let mc := bluealsa_pcm_client_resume m c
      (mc.1, { mc.2 with replies := mc.2.replies ++ [CtrlReply.ok] })
  | .unknown => (m, { c with replies := c.replies ++ [CtrlReply.invalid] })

/-- bluealsa_pcm_client_handle_control (bluealsa-pcm-client.c lines
361-406) on the path where a command of positive length was read from the
control socket: run the pre-drain step, then dispatch the command. -/
def bluealsa_pcm_client_handle_control (m : MultiC) (c : Client) (cmd : CtrlCmd) :
    MultiC × Client :=
  let mc := bluealsa_pcm_client_control_predrain m c
  bluealsa_pcm_client_control_dispatch mc.1 mc.2 cmd

/-- bluealsa_pcm_client_init (bluealsa-pcm-client.c lines 446-467) on the
success path: allocate the playback buffer of CLIENT_BUFFER_PERIODS
periods and go IDLE with the pipe watched, or go RUNNING for capture. -/
def bluealsa_pcm_client_init (m : MultiC) (c : Client) : MultiC × Client :=
  if bluealsa_pcm_client_is_playback m then
    let c := { c with buffer_size := (BLUEALSA_MULTI_CLIENT_THRESHOLD + 1) * m.period_bytes }
    let mc := bluealsa_pcm_client_set_state m c .idle
    (mc.1, bluealsa_pcm_client_watch_pcm mc.2 true)
  else
    bluealsa_pcm_client_set_state m c .running

/-! ## Multi model (bluealsa-pcm-multi.c) -/

/-- enum bluealsa_pcm_multi_state. -/
inductive MultiState
| init
| running
| paused
| finished
deriving DecidableEq

/-- The tail of each iteration of bluealsa_pcm_mix_thread_func
(bluealsa-pcm-multi.c lines 526-542), run after an event batch, on the
state-transition part relevant to threshold start-up: in INIT with active
clients the mix is first refilled (the buffer argument here is the buffer
after that refill); the multi goes RUNNING and wakes the transport only
if the refilled buffer is at threshold.  In RUNNING, an empty buffer
sends the multi back to INIT, otherwise the transport is woken.  Returns
the new multi state and whether the transport eventfd was signaled. -/
def bluealsa_pcm_mix_post_batch (state : MultiState) (active_count : Int)
    (b : MixBuffer) : MultiState × Bool :=
  if state = .init then
    if 0 < active_count then
      if bluealsa_mix_buffer_at_threshold b then (.running, true)
      else (.init, false)
    else (.init, false)
  else if state = .running then
    if bluealsa_mix_buffer_empty b then (.init, false)
    else (.running, true)
  else (state, false)

/-- Observable outcome of bluealsa_pcm_multi_read: the C return value,
the errno it sets when returning -1, and whether the transport-facing
event source (pcm->fd) was released. -/
structure MultiReadResult where
  buffer : MixBuffer
  ret : Int
  eagain : Bool
  eio : Bool
  released : Bool

/-- The state dispatch of bluealsa_pcm_multi_read (bluealsa-pcm-multi.c
lines 381-415), acting on the multi state observed after the
condition-variable wait: RUNNING reads the mix buffer (EAGAIN when it
yields nothing), FINISHED releases the transport PCM and returns 0, INIT
returns EAGAIN, and any other state returns EIO. -/
def bluealsa_pcm_multi_read (state : MultiState) (b : MixBuffer)
    (samples : Nat) (scale : Nat → Rat) : MultiReadResult :=
  match state with
  | .running =>
      let r := bluealsa_mix_buffer_read b samples scale
      if r.ret = 0 then
        { buffer := r.buffer, ret := -1, eagain := true, eio := false, released := false }
      else
        { buffer := r.buffer, ret := (r.ret : Nat), eagain := false, eio := false, released := false }
  | .finished =>
      { buffer := b, ret := 0, eagain := false, eio := false, released := true }
  | .init =>
      { buffer := b, ret := -1, eagain := true, eio := false, released := false }
  | .paused =>
      { buffer := b, ret := -1, eagain := false, eio := true, released := false }

/-! ## Helper lemmas -/

theorem watch_pcm_watch (c : Client) (e : Bool) :
    (bluealsa_pcm_client_watch_pcm c e).watch = e := by
  unfold bluealsa_pcm_client_watch_pcm
  split
  · next h => exact h
  · rfl

theorem watch_pcm_in_offset (c : Client) (e : Bool) :
    (bluealsa_pcm_client_watch_pcm c e).in_offset = c.in_offset := by
  unfold bluealsa_pcm_client_watch_pcm
  split <;> rfl

theorem watch_pcm_state (c : Client) (e : Bool) :
    (bluealsa_pcm_client_watch_pcm c e).state = c.state := by
  unfold bluealsa_pcm_client_watch_pcm
  split <;> rfl

theorem watch_pcm_replies (c : Client) (e : Bool) :
    (bluealsa_pcm_client_watch_pcm c e).replies = c.replies := by
  unfold bluealsa_pcm_client_watch_pcm
  split <;> rfl

theorem watch_pcm_drain_armed (c : Client) (e : Bool) :
    (bluealsa_pcm_client_watch_pcm c e).drain_armed = c.drain_armed := by
  unfold bluealsa_pcm_client_watch_pcm
  split <;> rfl

theorem watch_pcm_buffer_size (c : Client) (e : Bool) :
    (bluealsa_pcm_client_watch_pcm c e).buffer_size = c.buffer_size := by
  unfold bluealsa_pcm_client_watch_pcm
  split <;> rfl

/-! ## Claim C6: start threshold -/

/-- Concrete stereo buffer for the C6 counterexample: channels 2, period 4
samples (2 frames), 8 samples (= 1 period of frames) available. -/
def c6buf : MixBuffer :=
  { format := .s16_2le, channels := 2, frame_size := 4, size := 66, period := 4,
    mix_offset := 0, endOff := 8, data := fun _ => 0 }

/-- C6 counterexample: bluealsa_mix_buffer_at_threshold holds on a stereo
buffer although fewer than MIX_THRESHOLD periods of samples are
available, refuting the claim that it is true exactly when avail covers
MIX_THRESHOLD periods. -/
theorem c6_threshold_cex :
    bluealsa_mix_buffer_at_threshold c6buf = true ∧
    bluealsa_mix_buffer_calc_avail c6buf c6buf.mix_offset c6buf.endOff <
      BLUEALSA_MULTI_MIX_THRESHOLD * c6buf.period := by
  decide

/-- C6 (amended): the playback dispatcher leaves INIT for RUNNING (waking
the transport) only when bluealsa_mix_buffer_at_threshold holds of the
refilled mix buffer, and at_threshold holds exactly when
avail(mix_offset, end) is at least MIX_THRESHOLD * period / channels
samples, i.e. MIX_THRESHOLD periods of frames, which for channels > 1 is
fewer than MIX_THRESHOLD periods of samples. -/
theorem c6_threshold_amended (state : MultiState) (active_count : Int) (b : MixBuffer) :
    ((bluealsa_pcm_mix_post_batch state active_count b).1 = .running → state = .init →
      bluealsa_mix_buffer_at_threshold b = true ∧
        (bluealsa_pcm_mix_post_batch state active_count b).2 = true) ∧
    (bluealsa_mix_buffer_at_threshold b = true ↔
      BLUEALSA_MULTI_MIX_THRESHOLD * b.period / b.channels ≤
        bluealsa_mix_buffer_calc_avail b b.mix_offset b.endOff) := by
  constructor
  · intro hrun hinit
    subst hinit
    unfold bluealsa_pcm_mix_post_batch at hrun ⊢
    simp only [if_pos rfl] at hrun ⊢
    by_cases hac : 0 < active_count
    · simp only [if_pos hac] at hrun ⊢
      by_cases hth : bluealsa_mix_buffer_at_threshold b
      · simp [hth]
      · simp [hth] at hrun
    · simp [hac] at hrun
  · unfold bluealsa_mix_buffer_at_threshold
    simp

/-- C6 witness: the amended theorem applied to a concrete buffer at
threshold in state INIT with one active client. -/
theorem c6_threshold_amended_witness :
    bluealsa_mix_buffer_at_threshold c6buf = true ∧
      (bluealsa_pcm_mix_post_batch .init 1 c6buf).2 = true :=
  (c6_threshold_amended .init 1 c6buf).1 (by decide) rfl

/-! ## Claim C7: control command during drain -/

/-- Concrete multi for client-level counterexamples (playback). -/
def cexMultiC : MultiC :=
  { mode := .sink, active_count := 1, period_bytes := 8,
    playback_buffer :=
      { format := .s16_2le, channels := 2, frame_size := 4, size := 66, period := 4,
        mix_offset := 0, endOff := 0, data := fun _ => 0 } }

/-- Concrete client in DRAINING1 for the C7 counterexample. -/
def c7client : Client :=
  { state := .draining1, in_offset := 6, out_offset := 3, drain_avail := 4,
    buffer_size := 24, drop := false, watch := false, pcm_open := true,
    control_open := true, drain_armed := false, replies := [] }

/-- C7 counterexample: a control command received in DRAINING1 runs the
drain handler, but the handler is a no-op there (its guard requires
DRAINING2), so the client is still in DRAINING1, with in_offset not
reset and no deferred OK sent, when the command is dispatched. -/
theorem c7_predrain_cex :
    (bluealsa_pcm_client_control_predrain cexMultiC c7client).2.state =
        ClientState.draining1 ∧
      (bluealsa_pcm_client_control_predrain cexMultiC c7client).2.state ≠
        ClientState.idle ∧
      (bluealsa_pcm_client_control_predrain cexMultiC c7client).2.in_offset = 6 ∧
      (bluealsa_pcm_client_control_predrain cexMultiC c7client).2.replies = [] := by
  refine ⟨?_, ?_, ?_, ?_⟩ <;> decide

/-- C7 (amended): when a control command arrives the drain handler runs
before dispatch; from DRAINING2 this brings the client to IDLE with
in_offset reset, the drain timer disarmed, the pipe watch re-enabled and
the deferred OK sent, but from DRAINING1 the handler is a no-op and the
command is dispatched with the client still in DRAINING1. -/
theorem c7_predrain_amended (m : MultiC) (c : Client) :
    (c.state = .draining2 →
      (bluealsa_pcm_client_control_predrain m c).2.state = .idle ∧
      (bluealsa_pcm_client_control_predrain m c).2.in_offset = 0 ∧
      (bluealsa_pcm_client_control_predrain m c).2.watch = true ∧
      (bluealsa_pcm_client_control_predrain m c).2.drain_armed = false ∧
      (bluealsa_pcm_client_control_predrain m c).2.replies = c.replies ++ [CtrlReply.ok]) ∧
    (c.state = .draining1 → bluealsa_pcm_client_control_predrain m c = (m, c)) := by
  constructor
  · intro h2
    unfold bluealsa_pcm_client_control_predrain bluealsa_pcm_client_handle_drain
      bluealsa_pcm_client_set_state bluealsa_pcm_client_watch_drain
      bluealsa_pcm_client_watch_pcm
    simp [h2]
    by_cases hw : c.watch = true <;> simp [hw]
  · intro h1
    unfold bluealsa_pcm_client_control_predrain bluealsa_pcm_client_handle_drain
    simp [h1]

/-- Concrete client in DRAINING2 for the C7 witness. -/
def c7wclient : Client :=
  { state := .draining2, in_offset := 6, out_offset := 3, drain_avail := 4,
    buffer_size := 24, drop := false, watch := false, pcm_open := true,
    control_open := true, drain_armed := true, replies := [] }

/-- C7 witness: the amended theorem applied to a concrete DRAINING2 client. -/
theorem c7_predrain_amended_witness :
    (bluealsa_pcm_client_control_predrain cexMultiC c7wclient).2.state = .idle ∧
    (bluealsa_pcm_client_control_predrain cexMultiC c7wclient).2.in_offset = 0 ∧
    (bluealsa_pcm_client_control_predrain cexMultiC c7wclient).2.watch = true ∧
    (bluealsa_pcm_client_control_predrain cexMultiC c7wclient).2.drain_armed = false ∧
    (bluealsa_pcm_client_control_predrain cexMultiC c7wclient).2.replies =
      c7wclient.replies ++ [CtrlReply.ok] :=
  (c7_predrain_amended cexMultiC c7wclient).1 rfl

/-! ## Claim C8: multi_read state dispatch -/

/-- C8: the outcome of bluealsa_pcm_multi_read is determined by the state
observed after the condition-variable wait: INIT yields EAGAIN, FINISHED
releases the transport event source and returns 0, RUNNING reads the mix
(EAGAIN when it yields no samples, otherwise the sample count), and any
other state (PAUSED) yields EIO. -/
theorem c8_multi_read_dispatch (b : MixBuffer) (samples : Nat) (scale : Nat → Rat) :
    ((bluealsa_pcm_multi_read .init b samples scale).ret = -1 ∧
      (bluealsa_pcm_multi_read .init b samples scale).eagain = true ∧
      (bluealsa_pcm_multi_read .init b samples scale).released = false) ∧
    ((bluealsa_pcm_multi_read .finished b samples scale).ret = 0 ∧
      (bluealsa_pcm_multi_read .finished b samples scale).released = true) ∧
    ((bluealsa_mix_buffer_read b samples scale).ret = 0 →
      (bluealsa_pcm_multi_read .running b samples scale).ret = -1 ∧
      (bluealsa_pcm_multi_read .running b samples scale).eagain = true) ∧
    ((bluealsa_mix_buffer_read b samples scale).ret ≠ 0 →
      (bluealsa_pcm_multi_read .running b samples scale).ret =
        ((bluealsa_mix_buffer_read b samples scale).ret : Int) ∧
      (bluealsa_pcm_multi_read .running b samples scale).buffer =
        (bluealsa_mix_buffer_read b samples scale).buffer) ∧
    ((bluealsa_pcm_multi_read .paused b samples scale).ret = -1 ∧
      (bluealsa_pcm_multi_read .paused b samples scale).eio = true ∧
      (bluealsa_pcm_multi_read .paused b samples scale).released = false) := by
  refine ⟨⟨rfl, rfl, rfl⟩, ⟨rfl, rfl⟩, ?_, ?_, ⟨rfl, rfl, rfl⟩⟩
  · intro h
    simp [bluealsa_pcm_multi_read, h]
  · intro h
    simp [bluealsa_pcm_multi_read, h]

/-- C8 witness: the dispatch theorem applied to a concrete buffer; in
state INIT the call reports EAGAIN. -/
theorem c8_multi_read_dispatch_witness :
    (bluealsa_pcm_multi_read .init c6buf 8 (fun _ => 1)).ret = -1 ∧
      (bluealsa_pcm_multi_read .init c6buf 8 (fun _ => 1)).eagain = true ∧
      (bluealsa_pcm_multi_read .init c6buf 8 (fun _ => 1)).released = false :=
  (c8_multi_read_dispatch c6buf 8 (fun _ => 1)).1

/-! ## Claim C9: capture write error handling -/

theorem close_pcm_pcm_open (c : Client) :
    (bluealsa_pcm_client_close_pcm c).pcm_open = false := by
  unfold bluealsa_pcm_client_close_pcm
  split
  · rfl
  · next h => simpa using h

theorem close_pcm_control_open (c : Client) :
    (bluealsa_pcm_client_close_pcm c).control_open = c.control_open := by
  unfold bluealsa_pcm_client_close_pcm
  split <;> rfl

theorem close_pcm_state (c : Client) :
    (bluealsa_pcm_client_close_pcm c).state = c.state := by
  unfold bluealsa_pcm_client_close_pcm
  split <;> rfl

theorem close_pcm_in_offset (c : Client) :
    (bluealsa_pcm_client_close_pcm c).in_offset = c.in_offset := by
  unfold bluealsa_pcm_client_close_pcm
  split <;> rfl

theorem close_pcm_buffer_size (c : Client) :
    (bluealsa_pcm_client_close_pcm c).buffer_size = c.buffer_size := by
  unfold bluealsa_pcm_client_close_pcm
  split <;> rfl

/-- bluealsa_pcm_client_set_state changes only the state, drain_avail,
out_offset and active_count fields. -/
theorem set_state_fields (m : MultiC) (c : Client) (s : ClientState) :
    (bluealsa_pcm_client_set_state m c s).2.pcm_open = c.pcm_open ∧
    (bluealsa_pcm_client_set_state m c s).2.control_open = c.control_open ∧
    (bluealsa_pcm_client_set_state m c s).2.in_offset = c.in_offset ∧
    (bluealsa_pcm_client_set_state m c s).2.buffer_size = c.buffer_size ∧
    (bluealsa_pcm_client_set_state m c s).2.replies = c.replies ∧
    (bluealsa_pcm_client_set_state m c s).2.watch = c.watch ∧
    (bluealsa_pcm_client_set_state m c s).2.drain_armed = c.drain_armed ∧
    (bluealsa_pcm_client_set_state m c s).2.drop = c.drop := by
  unfold bluealsa_pcm_client_set_state
  split
  · exact ⟨rfl, rfl, rfl, rfl, rfl, rfl, rfl, rfl⟩
  · cases s <;> dsimp only <;> first
      | exact ⟨rfl, rfl, rfl, rfl, rfl, rfl, rfl, rfl⟩
      | (split_ifs <;> exact ⟨rfl, rfl, rfl, rfl, rfl, rfl, rfl, rfl⟩)

/-- The final state after a transition to FINISHED is FINISHED. -/
theorem set_state_finished_state (m : MultiC) (c : Client) :
    (bluealsa_pcm_client_set_state m c .finished).2.state = .finished := by
  unfold bluealsa_pcm_client_set_state
  split
  · next h => exact h.symm
  · split_ifs <;> rfl

/-- The write-retry loop either leaves the client record untouched, or
hit an error other than EINTR and EAGAIN, in which case the pipe is
closed and the client is FINISHED. -/
theorem write_loop_spec (m : MultiC) (c : Client) :
    ∀ (rs : List PipeWrite) (len : Nat),
      (bluealsa_pcm_client_write_loop m c len rs).2 = c ∨
      (PipeWrite.err ∈ rs ∧
        (bluealsa_pcm_client_write_loop m c len rs).2.state = .finished ∧
        (bluealsa_pcm_client_write_loop m c len rs).2.pcm_open = false) := by
  intro rs
  induction rs with
  | nil => intro len; exact Or.inl rfl
  | cons r rs ih =>
      intro len
      unfold bluealsa_pcm_client_write_loop
      by_cases hlen : len = 0
      · simp only [hlen, if_pos rfl]
        exact Or.inl rfl
      · simp only [if_neg hlen]
        cases r with
        | wrote n =>
            rcases ih (len - n) with h | h
            · exact Or.inl h
            · exact Or.inr ⟨List.mem_cons_of_mem _ h.1, h.2.1, h.2.2⟩
        | eintr =>
            rcases ih len with h | h
            · exact Or.inl h
            · exact Or.inr ⟨List.mem_cons_of_mem _ h.1, h.2.1, h.2.2⟩
        | eagain => exact Or.inl rfl
        | err =>
            refine Or.inr ⟨List.mem_cons_self _ _, set_state_finished_state _ _, ?_⟩
            rw [(set_state_fields _ _ _).1, close_pcm_pcm_open]

/-- C9: for a capture client write, EAGAIN makes the loop treat the whole
remainder as written, discarding the in-flight bytes and leaving the
client record (state and descriptors included) unchanged, so the decoder
never observes a failure; every trace either leaves the client unchanged
or contains a hard error, after which the pipe is closed and the client
is FINISHED. -/
theorem c9_client_write (m : MultiC) (c : Client) (len : Nat) (rs : List PipeWrite) :
    ((bluealsa_pcm_client_write m c len rs).2 = c ∨
      (PipeWrite.err ∈ rs ∧
        (bluealsa_pcm_client_write m c len rs).2.state = .finished ∧
        (bluealsa_pcm_client_write m c len rs).2.pcm_open = false)) ∧
    (len ≠ 0 → ∀ rs2 : List PipeWrite,
      bluealsa_pcm_client_write m c len (PipeWrite.eagain :: rs2) = (m, c)) := by
  constructor
  · unfold bluealsa_pcm_client_write
    split
    · exact Or.inl rfl
    · exact write_loop_spec m c rs len
  · intro hlen rs2
    unfold bluealsa_pcm_client_write bluealsa_pcm_client_write_loop
    simp [hlen]

/-- C9 witness: a concrete write trace that hits EAGAIN at once leaves the
client untouched. -/
theorem c9_client_write_witness :
    bluealsa_pcm_client_write cexMultiC c7client 16 [PipeWrite.eagain] =
      (cexMultiC, c7client) :=
  (c9_client_write cexMultiC c7client 16 [PipeWrite.eagain]).2 (by decide) []

/-! ## Claim C1: active_count invariant -/

/-- An active client in the sense of the active_count field: RUNNING or
DRAINING1 for playback, RUNNING only for capture. -/
def client_counted (mode : PcmMode) (s : ClientState) : Bool :=
  match mode with
  | .sink => s = ClientState.running ∨ s = ClientState.draining1
  | .source => s = ClientState.running

/-- Number of active clients in a client list. -/
def active_clients (mode : PcmMode) (l : List Client) : Nat :=
  (l.filter (fun c => client_counted mode c.state)).length

/-- The set_state transitions under which the code keeps active_count
equal to the number of active clients: all transitions the event handlers
can perform except the playback pause transitions (RUNNING or DRAINING1
to PAUSED, and PAUSED back to RUNNING). -/
def set_state_count_safe1 (mode : PcmMode) (old new : ClientState) : Prop :=
  (new = .idle ∨ new = .finished → mode = .source → old ≠ .draining1) ∧
  (new = .paused → mode = .sink → old ≠ .running ∧ old ≠ .draining1) ∧
  (new = .running →
    (mode = .sink → old = .idle ∨ old = .draining1 ∨ old = .running) ∧
    (mode = .source → old = .idle ∨ old = .init ∨ old = .paused ∨ old = .running))

def set_state_count_safe2 (mode : PcmMode) (old new : ClientState) : Prop :=
  (new = .draining1 → old = .draining1 ∨ (mode = .sink ∧ old = .running)) ∧
  (new = .draining2 → mode = .sink ∧ (old = .draining1 ∨ old = .draining2)) ∧
  (new = .init → client_counted mode old = false)

def set_state_count_safe (mode : PcmMode) (old new : ClientState) : Prop :=
  set_state_count_safe1 mode old new ∧ set_state_count_safe2 mode old new

instance (mode : PcmMode) (old new : ClientState) :
    Decidable (set_state_count_safe1 mode old new) := by
  unfold set_state_count_safe1
  infer_instance

instance (mode : PcmMode) (old new : ClientState) :
    Decidable (set_state_count_safe2 mode old new) := by
  unfold set_state_count_safe2
  infer_instance

instance (mode : PcmMode) (old new : ClientState) :
    Decidable (set_state_count_safe mode old new) := by
  unfold set_state_count_safe
  infer_instance

/-- On a count-safe transition, set_state changes active_count by exactly
the change of the active indicator of the transitioning client. -/
theorem set_state_count_delta (m : MultiC) (c : Client) (new : ClientState)
    (hsafe : set_state_count_safe m.mode c.state new) :
    (bluealsa_pcm_client_set_state m c new).1.active_count =
      m.active_count
        + (if client_counted m.mode (bluealsa_pcm_client_set_state m c new).2.state then (1 : Int) else 0)
        - (if client_counted m.mode c.state then (1 : Int) else 0) := by
  obtain ⟨⟨h1, h2, h3⟩, h4, h5, h6⟩ := hsafe
  unfold bluealsa_pcm_client_set_state
  cases hm : m.mode <;>
    cases hcs : c.state <;>
      cases new <;>
        simp_all [client_counted, bluealsa_pcm_client_is_capture,
          bluealsa_pcm_client_is_playback]

/-- Splitting the active count of a list around a distinguished element. -/
theorem active_clients_append (mode : PcmMode) (l1 l2 : List Client) (x : Client) :
    active_clients mode (l1 ++ x :: l2) =
      active_clients mode l1 + (if client_counted mode x.state then 1 else 0) +
        active_clients mode l2 := by
  simp only [active_clients, List.filter_append, List.filter_cons, List.length_append]
  split <;> (simp; try omega)

/-- Concrete playback client in RUNNING for the C1 counterexample. -/
def c1client : Client :=
  { state := .running, in_offset := 0, out_offset := 4, drain_avail := SIZE_MAX,
    buffer_size := 24, drop := false, watch := true, pcm_open := true,
    control_open := true, drain_armed := false, replies := [] }

/-- C1 counterexample: for a playback multi holding exactly one RUNNING
client and a correct active_count, the transition RUNNING to PAUSED via
bluealsa_pcm_client_set_state leaves active_count at 1 although no client
is in RUNNING or DRAINING1 afterwards, so the transition does not
preserve the claimed equality. -/
theorem c1_active_count_cex :
    cexMultiC.active_count = (active_clients PcmMode.sink [c1client] : Int) ∧
    c1client.state = ClientState.running ∧
    (bluealsa_pcm_client_set_state cexMultiC c1client .paused).2.state = ClientState.paused ∧
    ¬ ((bluealsa_pcm_client_set_state cexMultiC c1client .paused).1.active_count =
        (active_clients PcmMode.sink
          [(bluealsa_pcm_client_set_state cexMultiC c1client .paused).2] : Int)) := by
  refine ⟨by decide, by decide, by decide, by decide⟩

/-- C1 (amended): every set_state transition that the code performs,
other than the playback pause transitions (playback RUNNING or DRAINING1
to PAUSED, for which active_count is not decremented, and playback PAUSED
to RUNNING, for which it is not incremented), preserves the equality of
active_count with the number of clients in RUNNING or DRAINING1 (capture:
RUNNING only). -/
theorem c1_active_count_amended (m : MultiC) (l1 l2 : List Client) (c : Client)
    (new : ClientState)
    (hcount : m.active_count = (active_clients m.mode (l1 ++ c :: l2) : Int))
    (hsafe : set_state_count_safe m.mode c.state new) :
    (bluealsa_pcm_client_set_state m c new).1.active_count =
      (active_clients m.mode
        (l1 ++ (bluealsa_pcm_client_set_state m c new).2 :: l2) : Int) := by
  rw [active_clients_append] at hcount
  rw [active_clients_append]
  rw [set_state_count_delta m c new hsafe]
  push_cast at hcount ⊢
  split_ifs at hcount ⊢ <;> omega

/-- Concrete playback multi and IDLE client for the C1 witness. -/
def c1wmulti : MultiC :=
  { mode := .sink, active_count := 0, period_bytes := 8,
    playback_buffer :=
      { format := .s16_2le, channels := 2, frame_size := 4, size := 66, period := 4,
        mix_offset := 0, endOff := 0, data := fun _ => 0 } }

/-- Concrete IDLE playback client for the C1 witness. -/
def c1wclient : Client :=
  { state := .idle, in_offset := 6, out_offset := 0, drain_avail := SIZE_MAX,
    buffer_size := 24, drop := false, watch := true, pcm_open := true,
    control_open := true, drain_armed := false, replies := [] }

/-- C1 witness: the amended theorem applied to the transition IDLE to
RUNNING of a single playback client. -/
theorem c1_active_count_amended_witness :
    (bluealsa_pcm_client_set_state c1wmulti c1wclient .running).1.active_count =
      (active_clients c1wmulti.mode
        ([] ++ (bluealsa_pcm_client_set_state c1wmulti c1wclient .running).2 :: []) : Int) :=
  c1_active_count_amended c1wmulti [] [] c1wclient .running (by decide) (by decide)

/-! ## Claim C3: add return value -/

/-- Concrete stereo S16 buffer for the C3 counterexample. -/
def c3buf : MixBuffer :=
  { format := .s16_2le, channels := 2, frame_size := 4, size := 66, period := 4,
    mix_offset := 0, endOff := 0, data := fun _ => 0 }

/-- C3 counterexample: with a frame-misaligned cursor (offset 1 while
mix_offset is 0, channels 2), adding 10 frames is clipped to
limit - start = 19 samples and the call returns 38 bytes, which is not a
whole number of 4-byte frames. -/
theorem c3_add_cex :
    (bluealsa_mix_buffer_add c3buf 1 (fun _ => 0) 40).ret = 38 ∧
    ¬ c3buf.frame_size ∣ (bluealsa_mix_buffer_add c3buf 1 (fun _ => 0) 40).ret := by
  refine ⟨by decide, by decide⟩

theorem int_dvd_toNat (c : Nat) (a : Int) (h0 : 0 ≤ a) (h : (c : Int) ∣ a) :
    c ∣ a.toNat := by
  rw [← Int.toNat_of_nonneg h0] at h
  exact Int.natCast_dvd_natCast.mp h

/-- C3 (amended): bluealsa_mix_buffer_add consumes at most the whole-frame
prefix of its input, returns 0 (leaving buffer and cursor untouched)
whenever the resolved start position is at or beyond
mix_offset + (MIX_THRESHOLD + 1) * period, and, provided the cursor is
frame-aligned (cursor, mix_offset, size and period all multiples of
channels), the returned byte count is a whole number of frames.  For a
misaligned cursor the clip to limit - start can consume a partial frame. -/
theorem c3_add_amended (b : MixBuffer) (offset : Int) (src : Nat → Nat)
    (bytes : Nat) (hch : 0 < b.channels) :
    ((bluealsa_mix_buffer_add b offset src bytes).ret ≤ bytes / b.frame_size * b.frame_size) ∧
    (mix_add_limit b ≤ mix_add_resolved_start b offset →
      bluealsa_mix_buffer_add b offset src bytes =
        { buffer := b, offset := offset, ret := 0 }) ∧
    ((b.channels : Int) ∣ offset → b.channels ∣ b.mix_offset → b.channels ∣ b.size →
      b.channels ∣ b.period →
      b.frame_size ∣ (bluealsa_mix_buffer_add b offset src bytes).ret) := by
  by_cases hlim : mix_add_limit b ≤ mix_add_resolved_start b offset
  · rw [mix_add_of_le b offset src bytes hlim]
    exact ⟨Nat.zero_le _, fun _ => rfl, fun _ _ _ _ => dvd_zero _⟩
  · rw [mix_add_ret b offset src bytes hlim]
    push_neg at hlim
    refine ⟨?_, fun h => absurd h (not_le.mpr hlim), ?_⟩
    · have hs2 : mix_add_samples2 b offset bytes ≤ bytes / b.frame_size * b.channels := by
        unfold mix_add_samples2
        dsimp only
        split
        · next hclip => omega
        · exact Nat.le_refl _
      calc mix_add_samples2 b offset bytes * b.frame_size / b.channels
          ≤ bytes / b.frame_size * b.channels * b.frame_size / b.channels :=
            Nat.div_le_div_right (Nat.mul_le_mul_right _ hs2)
        _ = bytes / b.frame_size * b.frame_size := by
            rw [Nat.mul_right_comm, Nat.mul_div_cancel _ hch]
    · intro hoff hmix hsz hper
      have hmixZ : (b.channels : Int) ∣ (b.mix_offset : Int) := Int.natCast_dvd_natCast.mpr hmix
      have hszZ : (b.channels : Int) ∣ (b.size : Int) := Int.natCast_dvd_natCast.mpr hsz
      have hstart : (b.channels : Int) ∣ mix_add_resolved_start b offset := by
        unfold mix_add_resolved_start
        dsimp only
        split_ifs <;> first
          | exact dvd_add (dvd_sub hmixZ hoff) hszZ
          | exact dvd_sub hmixZ hoff
          | exact dvd_add hoff hszZ
          | exact hoff
      have hlimd : (b.channels : Int) ∣ mix_add_limit b := by
        unfold mix_add_limit
        exact dvd_add hmixZ (Dvd.dvd.mul_left (Int.natCast_dvd_natCast.mpr hper) _)
      have hchdvd : b.channels ∣ mix_add_samples2 b offset bytes := by
        unfold mix_add_samples2
        dsimp only
        split
        · exact int_dvd_toNat _ _ (by omega) (dvd_sub hlimd hstart)
        · exact dvd_mul_left b.channels (bytes / b.frame_size)
      obtain ⟨k, hk⟩ := hchdvd
      rw [hk, mul_assoc, Nat.mul_div_cancel_left _ hch]
      exact dvd_mul_left b.frame_size k

/-! ## Claim C2: back-pressure bound on the client cursor -/

/-- If the whole write fits below size, the ring rewind never fires and
the loop leaves start unchanged. -/
theorem mix_add_loop_no_wrap (size : Nat) (val : Nat → Int) :
    ∀ (rem n : Nat) (start : Int) (data : Nat → Int),
      0 ≤ start + n → start + n + rem ≤ (size : Int) →
      (mix_add_loop size val rem start n data).1 = start := by
  intro rem
  induction rem with
  | zero => intro n start data h0 hle; rfl
  | succ rem ih =>
      intro n start data h0 hle
      unfold mix_add_loop
      have hg : ¬ ((size : Int) ≤ start + n) := by omega
      dsimp only
      rw [if_neg hg]
      exact ih (n + 1) start _ (by omega) (by omega)

/-- Under the geometry bound start + n + rem <= 2 * size, the ring rewind
fires at most once: the loop returns either start or start - size, the
latter only when the write actually crosses size. -/
theorem mix_add_loop_one_wrap (size : Nat) (val : Nat → Int) :
    ∀ (rem n : Nat) (start : Int) (data : Nat → Int),
      0 ≤ start + n → start + n + rem ≤ 2 * (size : Int) →
      ((mix_add_loop size val rem start n data).1 = start ∨
        ((mix_add_loop size val rem start n data).1 = start - size ∧
          (size : Int) < start + n + rem)) := by
  intro rem
  induction rem with
  | zero => intro n start data h0 hle; exact Or.inl rfl
  | succ rem ih =>
      intro n start data h0 hle
      unfold mix_add_loop
      dsimp only
      by_cases hg : (size : Int) ≤ start + n
      · rw [if_pos hg]
        refine Or.inr ⟨?_, by omega⟩
        exact mix_add_loop_no_wrap size val rem (n + 1) (start - size) _
          (by omega) (by omega)
      · rw [if_neg hg]
        rcases ih (n + 1) start _ (by omega) (by omega) with h | ⟨h, hcr⟩
        · exact Or.inl h
        · exact Or.inr ⟨h, by omega⟩

/-- The wrap-aware lead of a client cursor over the mix read cursor: a
negative cursor is an explicit lead (ahead of the mix by its magnitude),
a non-negative cursor leads by its ring distance from mix_offset. -/
def mix_cursor_lead (b : MixBuffer) (c : Int) : Int :=
  if c < 0 then -c else (c - b.mix_offset) % (b.size : Int)

theorem mix_cursor_lead_congr (b b2 : MixBuffer) (c : Int)
    (h1 : b2.mix_offset = b.mix_offset) (h2 : b2.size = b.size) :
    mix_cursor_lead b2 c = mix_cursor_lead b c := by
  unfold mix_cursor_lead
  rw [h1, h2]

/-- The resolved start never lies below mix_offset. -/
theorem mix_add_resolved_start_lb (b : MixBuffer) (offset : Int)
    (hmix : b.mix_offset ≤ b.size) :
    (b.mix_offset : Int) ≤ mix_add_resolved_start b offset := by
  unfold mix_add_resolved_start
  dsimp only
  split_ifs <;> omega

/-- The samples fed by add never carry the start past the limit. -/
theorem mix_add_samples2_ub (b : MixBuffer) (offset : Int) (bytes : Nat)
    (hlim : ¬ mix_add_limit b ≤ mix_add_resolved_start b offset) :
    mix_add_resolved_start b offset + (mix_add_samples2 b offset bytes : Int) ≤
      mix_add_limit b := by
  unfold mix_add_samples2
  dsimp only
  split <;> omega

theorem mix_add_limit_val (b : MixBuffer) :
    mix_add_limit b =
      (b.mix_offset : Int) + (((BLUEALSA_MULTI_MIX_THRESHOLD + 1) * b.period : Nat) : Int) := by
  unfold mix_add_limit
  push_cast
  ring

/-- Concrete mono buffer for the C2 counterexample. -/
def c2buf : MixBuffer :=
  { format := .u8, channels := 1, frame_size := 1, size := 20, period := 2,
    mix_offset := 0, endOff := 0, data := fun _ => 0 }

/-- C2 counterexample: a fresh client that writes (MIX_THRESHOLD + 1)
periods in one call ends exactly at the limit, so the wrap-aware lead of
its cursor equals (MIX_THRESHOLD + 1) * period and is not strictly less. -/
theorem c2_lead_cex :
    mix_cursor_lead (bluealsa_mix_buffer_add c2buf 0 (fun _ => 0) 10).buffer
        (bluealsa_mix_buffer_add c2buf 0 (fun _ => 0) 10).offset =
      (((BLUEALSA_MULTI_MIX_THRESHOLD + 1) * c2buf.period : Nat) : Int) ∧
    ¬ (mix_cursor_lead (bluealsa_mix_buffer_add c2buf 0 (fun _ => 0) 10).buffer
          (bluealsa_mix_buffer_add c2buf 0 (fun _ => 0) 10).offset <
        (((BLUEALSA_MULTI_MIX_THRESHOLD + 1) * c2buf.period : Nat) : Int)) := by
  refine ⟨by decide, by decide⟩

/-- C2 (amended): for a buffer whose back-pressure window fits in the ring
(mix_offset <= size and (MIX_THRESHOLD + 1) * period < size), every call
to bluealsa_mix_buffer_add keeps the wrap-aware lead of the client cursor
over mix_offset at most (MIX_THRESHOLD + 1) * period samples; the bound
is attained, so it is not strict. -/
theorem c2_lead_amended (b : MixBuffer) (offset : Int) (src : Nat → Nat) (bytes : Nat)
    (hmix : b.mix_offset ≤ b.size)
    (hper : (BLUEALSA_MULTI_MIX_THRESHOLD + 1) * b.period < b.size)
    (hpre : mix_cursor_lead b offset ≤
      (((BLUEALSA_MULTI_MIX_THRESHOLD + 1) * b.period : Nat) : Int)) :
    mix_cursor_lead (bluealsa_mix_buffer_add b offset src bytes).buffer
        (bluealsa_mix_buffer_add b offset src bytes).offset ≤
      (((BLUEALSA_MULTI_MIX_THRESHOLD + 1) * b.period : Nat) : Int) := by
  have hfields := mix_add_buffer_fields b offset src bytes
  rw [mix_cursor_lead_congr b _ _ hfields.1 hfields.2.1]
  by_cases hlim : mix_add_limit b ≤ mix_add_resolved_start b offset
  · rw [mix_add_of_le b offset src bytes hlim]
    exact hpre
  · rw [mix_add_offset b offset src bytes hlim]
    have hst := mix_add_resolved_start_lb b offset hmix
    have hub := mix_add_samples2_ub b offset bytes hlim
    have hlv := mix_add_limit_val b
    have hwrap := mix_add_loop_one_wrap b.size
      (fun n => mix_decode b.format (src n))
      (mix_add_samples2 b offset bytes) 0 (mix_add_resolved_start b offset) b.data
      (by omega) (by omega)
    rcases hwrap with hres | ⟨hres, hcross⟩ <;> rw [hres]
    · have hnn : ¬ (mix_add_resolved_start b offset +
          (mix_add_samples2 b offset bytes : Int) < 0) := by omega
      unfold mix_cursor_lead
      rw [if_neg hnn]
      rw [Int.emod_eq_of_lt (by omega) (by omega)]
      omega
    · have hnn : ¬ (mix_add_resolved_start b offset - b.size +
          (mix_add_samples2 b offset bytes : Int) < 0) := by omega
      unfold mix_cursor_lead
      rw [if_neg hnn]
      have heq : mix_add_resolved_start b offset - (b.size : Int) +
          (mix_add_samples2 b offset bytes : Int) - b.mix_offset =
        (mix_add_resolved_start b offset + (mix_add_samples2 b offset bytes : Int)
          - b.mix_offset) - b.size := by ring
      rw [heq, Int.sub_emod, Int.emod_self, sub_zero, Int.emod_emod_of_dvd _ dvd_rfl]
      rw [Int.emod_eq_of_lt (by omega) (by omega)]
      omega

/-- C2 witness: the amended bound applied to a concrete in-range write. -/
theorem c2_lead_amended_witness :
    mix_cursor_lead (bluealsa_mix_buffer_add c2buf 0 (fun _ => 0) 4).buffer
        (bluealsa_mix_buffer_add c2buf 0 (fun _ => 0) 4).offset ≤
      (((BLUEALSA_MULTI_MIX_THRESHOLD + 1) * c2buf.period : Nat) : Int) :=
  c2_lead_amended c2buf 0 (fun _ => 0) 4 (by decide) (by decide) (by decide)

/-- Concrete aligned input for the C3 witness. -/
def c3wbuf : MixBuffer :=
  { format := .s16_2le, channels := 2, frame_size := 4, size := 66, period := 4,
    mix_offset := 0, endOff := 0, data := fun _ => 0 }

/-- C3 witness: the amended theorem applied to an aligned cursor; the
consumed byte count is a whole number of frames and within the
whole-frame prefix of the input. -/
theorem c3_add_amended_witness :
    (bluealsa_mix_buffer_add c3wbuf 0 (fun _ => 0) 8).ret ≤
        8 / c3wbuf.frame_size * c3wbuf.frame_size ∧
      c3wbuf.frame_size ∣ (bluealsa_mix_buffer_add c3wbuf 0 (fun _ => 0) 8).ret :=
  ⟨(c3_add_amended c3wbuf 0 (fun _ => 0) 8 (by decide)).1,
    (c3_add_amended c3wbuf 0 (fun _ => 0) 8 (by decide)).2.2 (by decide) (by decide)
      (by decide) (by decide)⟩

/-! ## Claim C10: the client byte buffer cannot overflow -/

/-- add never consumes more bytes than it was offered. -/
theorem mix_add_ret_le (b : MixBuffer) (offset : Int) (src : Nat → Nat) (bytes : Nat) :
    (bluealsa_mix_buffer_add b offset src bytes).ret ≤ bytes := by
  by_cases hlim : mix_add_limit b ≤ mix_add_resolved_start b offset
  · rw [mix_add_of_le b offset src bytes hlim]
    exact Nat.zero_le _
  · rw [mix_add_ret b offset src bytes hlim]
    have hs2 : mix_add_samples2 b offset bytes ≤ bytes / b.frame_size * b.channels := by
      unfold mix_add_samples2
      dsimp only
      split
      · omega
      · exact Nat.le_refl _
    rcases Nat.eq_zero_or_pos b.channels with hch | hch
    · rw [hch, Nat.div_zero]
      exact Nat.zero_le _
    · calc mix_add_samples2 b offset bytes * b.frame_size / b.channels
          ≤ bytes / b.frame_size * b.channels * b.frame_size / b.channels :=
            Nat.div_le_div_right (Nat.mul_le_mul_right _ hs2)
        _ = bytes / b.frame_size * b.frame_size := by
            rw [Nat.mul_right_comm, Nat.mul_div_cancel _ hch]
        _ ≤ bytes := Nat.div_mul_le_self bytes b.frame_size

/-- bluealsa_pcm_client_read changes only in_offset. -/
theorem client_read_fields (c : Client) (r : PipeRead) :
    (bluealsa_pcm_client_read c r).1.buffer_size = c.buffer_size ∧
    (bluealsa_pcm_client_read c r).1.state = c.state ∧
    (bluealsa_pcm_client_read c r).1.out_offset = c.out_offset ∧
    (bluealsa_pcm_client_read c r).1.drain_avail = c.drain_avail := by
  unfold bluealsa_pcm_client_read
  dsimp only
  split
  · exact ⟨rfl, rfl, rfl, rfl⟩
  · cases r <;> exact ⟨rfl, rfl, rfl, rfl⟩

/-- Reading from the pipe respects the buffer bound whenever the kernel
honors the requested space. -/
theorem client_read_in_offset_le (c : Client) (r : PipeRead)
    (hinv : c.in_offset ≤ c.buffer_size)
    (hr : ∀ k, r = PipeRead.data k → k ≤ c.buffer_size - c.in_offset) :
    (bluealsa_pcm_client_read c r).1.in_offset ≤ c.buffer_size := by
  unfold bluealsa_pcm_client_read
  dsimp only
  split
  · exact hinv
  · cases r with
    | data k =>
        have := hr k rfl
        dsimp only
        omega
    | closed => exact hinv
    | eagain => exact hinv

/-- The mix-feeding tail of deliver respects the buffer bound and leaves
buffer_size unchanged. -/
theorem deliver_mix_spec (m : MultiC) (c : Client) (src : Nat → Nat)
    (hinv : c.in_offset ≤ c.buffer_size) :
    (bluealsa_pcm_client_deliver_mix m c src).2.in_offset ≤ c.buffer_size ∧
    (bluealsa_pcm_client_deliver_mix m c src).2.buffer_size = c.buffer_size := by
  unfold bluealsa_pcm_client_deliver_mix
  dsimp only
  split
  · split
    · rw [watch_pcm_in_offset, watch_pcm_buffer_size]
      dsimp only
      exact ⟨by omega, rfl⟩
    · exact ⟨hinv, rfl⟩
  · exact ⟨hinv, rfl⟩

/-- C10: the client byte buffer cannot overflow.  bluealsa_pcm_client_read
returns 0 without consuming pipe data when the buffer is full and
otherwise grows in_offset by at most the remaining space, deliver only
shrinks in_offset, and bluealsa_pcm_client_init sizes the buffer as
(CLIENT_THRESHOLD + 1) periods. -/
theorem c10_client_buffer (m : MultiC) (c : Client) (src : Nat → Nat) (r : PipeRead)
    (hinv : c.in_offset ≤ c.buffer_size)
    (hr : ∀ k, r = PipeRead.data k → k ≤ c.buffer_size - c.in_offset) :
    ((bluealsa_pcm_client_read c r).1.in_offset ≤ c.buffer_size) ∧
    (c.in_offset = c.buffer_size → bluealsa_pcm_client_read c r = (c, 0)) ∧
    ((bluealsa_pcm_client_deliver m c src r).2.in_offset ≤
        (bluealsa_pcm_client_deliver m c src r).2.buffer_size) ∧
    (bluealsa_pcm_client_is_playback m = true →
      (bluealsa_pcm_client_init m c).2.buffer_size =
        (BLUEALSA_MULTI_CLIENT_THRESHOLD + 1) * m.period_bytes) := by
  refine ⟨client_read_in_offset_le c r hinv hr, ?_, ?_, ?_⟩
  · intro hfull
    unfold bluealsa_pcm_client_read
    dsimp only
    rw [if_pos (by omega)]
  · unfold bluealsa_pcm_client_deliver
    dsimp only
    split
    · exact hinv
    · split
      · -- DRAINING1 branch: the opportunistic read comes first
        have hrd := client_read_in_offset_le c r hinv hr
        have hbs := (client_read_fields c r).1
        split
        · -- pipe closed: close and finish
          rw [(set_state_fields _ _ _).2.2.1, (set_state_fields _ _ _).2.2.2.1,
            close_pcm_in_offset, close_pcm_buffer_size]
          omega
        · -- the pipe returned EAGAIN with nothing buffered
          split
          · split
            · -- drained: go DRAINING2
              simp only [bluealsa_pcm_client_watch_drain]
              rw [(set_state_fields _ _ _).2.2.1, (set_state_fields _ _ _).2.2.2.1]
              omega
            · -- keep feeding the mix with a refreshed drain_avail snapshot
              have hs := deliver_mix_spec m
                { (bluealsa_pcm_client_read c r).1 with
                    drain_avail := bluealsa_mix_buffer_calc_avail m.playback_buffer
                      m.playback_buffer.mix_offset
                      (uint_of_int 64 (bluealsa_pcm_client_read c r).1.out_offset) } src
                (by dsimp only; omega)
              exact hs.1.trans (le_of_eq hs.2.symm)
          · -- bytes still pending after the read
            have hs := deliver_mix_spec m (bluealsa_pcm_client_read c r).1 src (by omega)
            exact hs.1.trans (le_of_eq hs.2.symm)
      · -- RUNNING branch
        have hs := deliver_mix_spec m c src hinv
        exact hs.1.trans (le_of_eq hs.2.symm)
  · intro hpb
    unfold bluealsa_pcm_client_init
    rw [if_pos hpb]
    rw [watch_pcm_buffer_size, (set_state_fields _ _ _).2.2.2.1]

/-- Concrete client for the C10 witness. -/
def c10wclient : Client :=
  { state := .running, in_offset := 20, out_offset := 4, drain_avail := SIZE_MAX,
    buffer_size := 24, drop := false, watch := true, pcm_open := true,
    control_open := true, drain_armed := false, replies := [] }

/-- C10 witness: the invariant theorem applied to a concrete running
client reading 4 bytes into the one free slot of its buffer. -/
theorem c10_client_buffer_witness :
    ((bluealsa_pcm_client_read c10wclient (PipeRead.data 4)).1.in_offset ≤
        c10wclient.buffer_size) ∧
      (bluealsa_pcm_client_deliver cexMultiC c10wclient (fun _ => 0)
          (PipeRead.data 4)).2.in_offset ≤
        (bluealsa_pcm_client_deliver cexMultiC c10wclient (fun _ => 0)
          (PipeRead.data 4)).2.buffer_size :=
  ⟨(c10_client_buffer cexMultiC c10wclient (fun _ => 0) (PipeRead.data 4) (by decide)
      (by intro k hk; cases hk; decide)).1,
    (c10_client_buffer cexMultiC c10wclient (fun _ => 0) (PipeRead.data 4) (by decide)
      (by intro k hk; cases hk; decide)).2.2.1⟩

/-! ## Claim C5: read output stays in the format's signed range -/

/-- Smallest client-visible sample value of each format (for U8 the value
after removing the 0x80 bias). -/
def format_min : PcmFormat → Int
| .u8 => -(2 ^ 7)
| .s16_2le => -(2 ^ 15)
| .s24_4le => -(2 ^ 23)
| .s32_4le => -(2 ^ 31)

/-- Largest client-visible sample value of each format. -/
def format_max : PcmFormat → Int
| .u8 => 2 ^ 7 - 1
| .s16_2le => 2 ^ 15 - 1
| .s24_4le => 2 ^ 23 - 1
| .s32_4le => 2 ^ 31 - 1

/-- Whatever value read packs into an output word, decoding that word
stays within the format's signed range; for S24_4LE this holds because
BA_INT32_TO_S24_4LE always produces a word below 2^24 whose sign
extension lies in the signed 24-bit range. -/
theorem mix_pack_word_decode_range (fmt : PcmFormat) (s : Int) :
    format_min fmt ≤ mix_decode fmt (mix_pack_word fmt s) ∧
      mix_decode fmt (mix_pack_word fmt s) ≤ format_max fmt := by
  cases fmt <;>
    simp only [mix_pack_word, mix_decode, uint_of_int, signed_of_word,
      format_min, format_max] <;>
    norm_num <;>
    split_ifs <;>
    constructor <;>
    omega

/-- Every word the read loop appends is a packed scaled sample. -/
theorem mix_read_loop_out (fmt : PcmFormat) (channels size : Nat) (scale : Nat → Rat) :
    ∀ (rem : Nat) (start : Int) (n : Nat) (data : Nat → Int) (out : List Nat),
      ∀ w ∈ (mix_read_loop fmt channels size scale rem start n data out).2.2.2,
        w ∈ out ∨ ∃ q a, w = mix_out_word fmt q a := by
  intro rem
  induction rem with
  | zero => intro start n data out w hw; exact Or.inl hw
  | succ rem ih =>
      intro start n data out w hw
      unfold mix_read_loop at hw
      rcases ih _ _ _ _ w hw with hmem | hex
      · rcases List.mem_append.mp hmem with h | h
        · exact Or.inl h
        · rcases List.mem_map.mp h with ⟨ch, _, hch⟩
          exact Or.inr ⟨_, _, hch.symm⟩
      · exact Or.inr hex

/-- C5: every sample that bluealsa_mix_buffer_read produces decodes to a
value within the format's signed range, for every format, accumulator
state and scale vector. -/
theorem c5_read_range (b : MixBuffer) (samples : Nat) (scale : Nat → Rat) :
    ∀ w ∈ (bluealsa_mix_buffer_read b samples scale).out,
      format_min b.format ≤ mix_decode b.format w ∧
        mix_decode b.format w ≤ format_max b.format := by
  intro w hw
  rcases mix_read_loop_out b.format b.channels b.size scale _ _ _ _ _ w hw with
    hmem | ⟨q, a, rfl⟩
  · cases hmem
  · exact mix_pack_word_decode_range b.format (mix_scale_sample b.format q a)

/-- Concrete buffer holding large accumulator values for the C5 witness. -/
def c5wbuf : MixBuffer :=
  { format := .s24_4le, channels := 2, frame_size := 8, size := 66, period := 4,
    mix_offset := 0, endOff := 4, data := fun _ => 123456789 }

/-- C5 witness: the range theorem applied to a concrete S24_4LE read of a
saturating accumulator with muted channels. -/
theorem c5_read_range_witness :
    format_min c5wbuf.format ≤
        mix_decode c5wbuf.format
          ((bluealsa_mix_buffer_read c5wbuf 4 (fun _ => 0)).out.headI) ∧
      mix_decode c5wbuf.format
          ((bluealsa_mix_buffer_read c5wbuf 4 (fun _ => 0)).out.headI) ≤
        format_max c5wbuf.format :=
  c5_read_range c5wbuf 4 (fun _ => 0)
    ((bluealsa_mix_buffer_read c5wbuf 4 (fun _ => 0)).out.headI)
    (by decide)

/-! ## Claim C4: read delivers whole frames and zeroes consumed cells -/

/-- Between two multiples of c there is room for one more step of c. -/
theorem dvd_add_le (c a b : Nat) (ha : c ∣ a) (hb : c ∣ b) (hab : a < b) :
    a + c ≤ b := by
  have hd : c ∣ b - a := Nat.dvd_sub' hb ha
  have := Nat.le_of_dvd (by omega) hd
  omega

/-- Subtracting the modulus does not change an integer残 remainder. -/
theorem int_sub_emod_self (a s : Int) : (a - s) % s = a % s := by
  rw [Int.sub_emod, Int.emod_self, sub_zero, Int.emod_emod_of_dvd _ dvd_rfl]

/-- Main invariant of the read loop: starting channel-aligned inside the
ring, the loop processes exactly channels samples per frame, keeps the
write head inside [0, size], returns a start that differs from the
original by whole turns of the ring, zeroes every accumulator cell of the
delivered region and touches no other cell except by zeroing. -/
theorem mix_read_loop_spec (fmt : PcmFormat) (channels size : Nat) (scale : Nat → Rat)
    (hch : 0 < channels) (hchs : channels ∣ size) (hsz : 0 < size) :
    ∀ (rem n : Nat) (start : Int) (data : Nat → Int) (out : List Nat),
      channels ∣ n → (channels : Int) ∣ start →
      0 ≤ start + n → start + n ≤ size →
      ((mix_read_loop fmt channels size scale rem start n data out).2.1 =
          n + channels * rem) ∧
      (∃ k : Nat, (mix_read_loop fmt channels size scale rem start n data out).1 =
          start - k * size) ∧
      (0 ≤ (mix_read_loop fmt channels size scale rem start n data out).1 +
          ((mix_read_loop fmt channels size scale rem start n data out).2.1 : Int)) ∧
      ((mix_read_loop fmt channels size scale rem start n data out).1 +
          ((mix_read_loop fmt channels size scale rem start n data out).2.1 : Int) ≤ size) ∧
      (∀ i : Nat, i < channels * rem →
        (mix_read_loop fmt channels size scale rem start n data out).2.2.1
          (((start + n + i) % (size : Int)).toNat) = 0) ∧
      (∀ j : Nat,
        (mix_read_loop fmt channels size scale rem start n data out).2.2.1 j = 0 ∨
        (mix_read_loop fmt channels size scale rem start n data out).2.2.1 j = data j) := by
  intro rem
  induction rem with
  | zero =>
      intro n start data out hdn hds h0 h1
      have hTriv : mix_read_loop fmt channels size scale 0 start n data out =
          (start, n, data, out) := rfl
      rw [hTriv]
      exact ⟨by simp, ⟨0, by simp⟩, h0, h1, fun i hi => absurd hi (by simp),
        fun j => Or.inr rfl⟩
  | succ rem ih =>
      intro n start data out hdn hds h0 h1
      have hchsz : (channels : Int) ≤ size := by exact_mod_cast Nat.le_of_dvd hsz hchs
      unfold mix_read_loop
      dsimp only
      by_cases hg : (size : Int) ≤ start + n
      · -- the rewind fires: start + n = size exactly, the frame restarts at 0
        simp only [if_pos hg]
        have heq : start + n = (size : Int) := le_antisymm h1 hg
        have hds2 : (channels : Int) ∣ start - size :=
          dvd_sub hds (Int.natCast_dvd_natCast.mpr hchs)
        obtain ⟨hn2, ⟨k, hk⟩, hp2, hl2, hcov2, hz2⟩ :=
          ih (n + channels) (start - size)
            (fun j => if ((start - (size : Int) + n).toNat ≤ j ∧
                j < (start - (size : Int) + n).toNat + channels) then 0 else data j)
            (out ++ (List.range channels).map
              (fun ch => mix_out_word fmt (scale ch)
                (data ((start - (size : Int) + n).toNat + ch))))
            (Dvd.dvd.add hdn dvd_rfl) hds2 (by push_cast; omega) (by push_cast; omega)
        refine ⟨by rw [hn2]; ring, ⟨k + 1, by rw [hk]; push_cast; ring⟩, hp2, hl2, ?_, ?_⟩
        · intro i hi
          have hexp : channels * (rem + 1) = channels * rem + channels := by ring
          by_cases hic : i < channels
          · have hcell : ((start + n + i) % (size : Int)).toNat =
                (start - (size : Int) + n).toNat + i := by
              have h5 : (start + n + i) % (size : Int) =
                  (start - size + n + i) % size := by
                rw [show start - (size : Int) + n + i = start + n + i - size by ring,
                  int_sub_emod_self]
              rw [h5, Int.emod_eq_of_lt (by omega) (by omega)]
              omega
            rw [hcell]
            rcases hz2 ((start - (size : Int) + n).toNat + i) with h | h
            · exact h
            · rw [h, if_pos (by omega)]
          · have h5 : (start + n + i) % (size : Int) =
                (start - size + ((n + channels : Nat) : Int) +
                  ((i - channels : Nat) : Int)) % size := by
              rw [show start - (size : Int) + ((n + channels : Nat) : Int) +
                  ((i - channels : Nat) : Int) = start + n + i - size by
                push_cast [Nat.cast_sub (le_of_not_lt hic)]
                ring]
              rw [int_sub_emod_self]
            rw [h5]
            exact hcov2 (i - channels) (by omega)
        · intro j
          rcases hz2 j with h | h
          · exact Or.inl h
          · rw [h]
            split
            · exact Or.inl rfl
            · exact Or.inr rfl
      · -- no rewind: the frame lies strictly inside the ring
        simp only [if_neg hg]
        have hb1 : start + n < size := lt_of_not_le hg
        have hdvd_base : channels ∣ (start + n).toNat :=
          int_dvd_toNat _ _ h0 (dvd_add hds (Int.natCast_dvd_natCast.mpr hdn))
        have hstep : (start + n).toNat + channels ≤ size := by
          refine dvd_add_le channels _ _ hdvd_base hchs ?_
          omega
        obtain ⟨hn2, ⟨k, hk⟩, hp2, hl2, hcov2, hz2⟩ :=
          ih (n + channels) start
            (fun j => if ((start + (n : Int)).toNat ≤ j ∧
                j < (start + (n : Int)).toNat + channels) then 0 else data j)
            (out ++ (List.range channels).map
              (fun ch => mix_out_word fmt (scale ch) (data ((start + (n : Int)).toNat + ch))))
            (Dvd.dvd.add hdn dvd_rfl) hds (by push_cast; omega) (by push_cast; omega)
        refine ⟨by rw [hn2]; ring, ⟨k, by rw [hk]⟩, hp2, hl2, ?_, ?_⟩
        · intro i hi
          have hexp : channels * (rem + 1) = channels * rem + channels := by ring
          by_cases hic : i < channels
          · have hcell : ((start + n + i) % (size : Int)).toNat =
                (start + (n : Int)).toNat + i := by
              rw [Int.emod_eq_of_lt (by omega) (by omega)]
              omega
            rw [hcell]
            rcases hz2 ((start + (n : Int)).toNat + i) with h | h
            · exact h
            · rw [h, if_pos (by omega)]
          · have h5 : (start + n + i) % (size : Int) =
                (start + ((n + channels : Nat) : Int) +
                  ((i - channels : Nat) : Int)) % size := by
              congr 1
              push_cast [Nat.cast_sub (le_of_not_lt hic)]
              ring
            rw [h5]
            exact hcov2 (i - channels) (by omega)
        · intro j
          rcases hz2 j with h | h
          · exact Or.inl h
          · rw [h]
            split
            · exact Or.inl rfl
            · exact Or.inr rfl

/-- The delivered sample count respects frame alignment. -/
theorem mix_read_samples3_dvd (b : MixBuffer) (samples : Nat)
    (hchp : b.channels ∣ b.period) (hchm : b.channels ∣ b.mix_offset)
    (hche : b.channels ∣ b.endOff) (hchs : b.channels ∣ b.size) :
    b.channels ∣ mix_read_samples3 b samples := by
  unfold mix_read_samples3
  dsimp only
  have h1 : b.channels ∣ samples - samples % b.channels := by
    have := Nat.mod_add_div samples b.channels
    exact ⟨samples / b.channels, by omega⟩
  have havail : b.channels ∣ bluealsa_mix_buffer_calc_avail b b.mix_offset b.endOff := by
    unfold bluealsa_mix_buffer_calc_avail
    split
    · exact Nat.dvd_sub' hche hchm
    · exact Nat.dvd_sub' (Nat.dvd_add hchs hche) hchm
  split_ifs <;> first
    | exact havail
    | exact hchp
    | exact h1

/-- The delivered sample count is at most one period and at most the
available samples. -/
theorem mix_read_samples3_le (b : MixBuffer) (samples : Nat) :
    mix_read_samples3 b samples ≤ b.period ∧
    mix_read_samples3 b samples ≤
      bluealsa_mix_buffer_calc_avail b b.mix_offset b.endOff := by
  unfold mix_read_samples3
  dsimp only
  constructor <;> (split_ifs <;> omega)

/-- For an exact multiple, the ceiling division of the loop bound is the
quotient. -/
theorem ceil_div_exact (ch t s3 : Nat) (hch : 0 < ch) (h : s3 = ch * t) :
    (s3 + ch - 1) / ch = t := by
  subst h
  have h1 : ch * t + ch - 1 = (ch - 1) + ch * t := by omega
  rw [h1, Nat.add_mul_div_left _ _ hch, Nat.div_eq_of_lt (by omega)]
  omega

/-- An advance of s3 samples, possibly wrapped once, reads back as s3
through calc_avail. -/
theorem calc_avail_advance (b : MixBuffer) (s3 k : Nat) (M : Int)
    (hM : M = (b.mix_offset : Int) + s3 - k * b.size) (h0 : 0 ≤ M) (h1 : M ≤ b.size)
    (hmix : b.mix_offset ≤ b.size) (hs3 : s3 < b.size) :
    bluealsa_mix_buffer_calc_avail b b.mix_offset M.toNat = s3 := by
  unfold bluealsa_mix_buffer_calc_avail
  rcases Nat.lt_or_ge k 2 with hk | hk
  · interval_cases k <;> (split <;> (push_cast at hM; omega))
  · exfalso
    have hk2 : (2 : Int) ≤ (k : Int) := by exact_mod_cast hk
    have hs : (0 : Int) ≤ b.size := by positivity
    have : (2 : Int) * b.size ≤ (k : Int) * b.size := mul_le_mul_of_nonneg_right hk2 hs
    omega

/-- Aligned-state behaviour of the read path: for a buffer whose geometry is
channel-aligned, whose period is smaller than the ring and whose cursors are
channel-aligned and in range, bluealsa_mix_buffer_read delivers a whole
number of frames, at most one period and at most avail(mix_offset, end);
mix_offset advances by exactly the returned count (wrap-aware), and every
accumulator cell whose sample was delivered is zero afterwards.  The
alignment hypotheses are essential: c4_read_bug below exhibits a reachable
buffer state with a channel-misaligned end where the conclusion fails. -/
theorem mix_read_aligned (b : MixBuffer) (samples : Nat) (scale : Nat → Rat)
    (hch : 0 < b.channels) (hchs : b.channels ∣ b.size) (hchp : b.channels ∣ b.period)
    (hchm : b.channels ∣ b.mix_offset) (hche : b.channels ∣ b.endOff)
    (hmix : b.mix_offset ≤ b.size) (hper : b.period < b.size) :
    (b.channels ∣ (bluealsa_mix_buffer_read b samples scale).ret) ∧
    ((bluealsa_mix_buffer_read b samples scale).ret ≤ b.period) ∧
    ((bluealsa_mix_buffer_read b samples scale).ret ≤
      bluealsa_mix_buffer_calc_avail b b.mix_offset b.endOff) ∧
    (bluealsa_mix_buffer_calc_avail b b.mix_offset
        (bluealsa_mix_buffer_read b samples scale).buffer.mix_offset =
      (bluealsa_mix_buffer_read b samples scale).ret) ∧
    (∀ i, i < (bluealsa_mix_buffer_read b samples scale).ret →
      (bluealsa_mix_buffer_read b samples scale).buffer.data
        ((b.mix_offset + i) % b.size) = 0) := by
  have hsz : 0 < b.size := by omega
  obtain ⟨t, ht⟩ := mix_read_samples3_dvd b samples hchp hchm hche hchs
  have hret : (bluealsa_mix_buffer_read b samples scale).ret =
      mix_read_samples3 b samples := rfl
  have hrem : b.channels * ((mix_read_samples3 b samples + b.channels - 1) / b.channels) =
      mix_read_samples3 b samples := by
    rw [ceil_div_exact b.channels t _ hch ht, ← ht]
  obtain ⟨hn2, ⟨k, hk⟩, hp2, hl2, hcov2, hz2⟩ :=
    mix_read_loop_spec b.format b.channels b.size scale hch hchs hsz
      ((mix_read_samples3 b samples + b.channels - 1) / b.channels) 0
      (b.mix_offset : Int) b.data [] (dvd_zero _) (Int.natCast_dvd_natCast.mpr hchm)
      (by positivity) (by push_cast; omega)
  have hs3lt : mix_read_samples3 b samples < b.size :=
    lt_of_le_of_lt (mix_read_samples3_le b samples).1 hper
  refine ⟨⟨t, by rw [hret, ht]⟩, (mix_read_samples3_le b samples).1,
    (mix_read_samples3_le b samples).2, ?_, ?_⟩
  · rw [hret]
    refine calc_avail_advance b (mix_read_samples3 b samples) k _ ?_ hp2 hl2 hmix hs3lt
    rw [hn2, hrem, hk]
    push_cast
    ring
  · intro i hi
    rw [hret] at hi
    have hcell := hcov2 i (by omega)
    have hidx : (((b.mix_offset : Int) + (0 : Nat) + i) % (b.size : Int)).toNat =
        (b.mix_offset + i) % b.size := by
      rw [show ((b.mix_offset : Int) + ((0 : Nat) : Int) + i) =
          ((b.mix_offset + i : Nat) : Int) by push_cast; ring, ← Int.natCast_mod,
        Int.toNat_natCast]
    rw [hidx] at hcell
    exact hcell

/-- Concrete well-formed stereo buffer satisfying the alignment hypotheses. -/
def c4wbuf : MixBuffer :=
  { format := .s16_2le, channels := 2, frame_size := 4, size := 66, period := 4,
    mix_offset := 0, endOff := 6, data := fun j => if j < 6 then 100 else 0 }

/-- The aligned-state read theorem applied to a concrete buffer with six
samples available and a request of eight, showing its hypotheses are
satisfiable. -/
theorem mix_read_aligned_example :
    (c4wbuf.channels ∣ (bluealsa_mix_buffer_read c4wbuf 8 (fun _ => 0)).ret) ∧
    ((bluealsa_mix_buffer_read c4wbuf 8 (fun _ => 0)).ret ≤ c4wbuf.period) ∧
    ((bluealsa_mix_buffer_read c4wbuf 8 (fun _ => 0)).ret ≤
      bluealsa_mix_buffer_calc_avail c4wbuf c4wbuf.mix_offset c4wbuf.endOff) ∧
    (bluealsa_mix_buffer_calc_avail c4wbuf c4wbuf.mix_offset
        (bluealsa_mix_buffer_read c4wbuf 8 (fun _ => 0)).buffer.mix_offset =
      (bluealsa_mix_buffer_read c4wbuf 8 (fun _ => 0)).ret) ∧
    (∀ i, i < (bluealsa_mix_buffer_read c4wbuf 8 (fun _ => 0)).ret →
      (bluealsa_mix_buffer_read c4wbuf 8 (fun _ => 0)).buffer.data
        ((c4wbuf.mix_offset + i) % c4wbuf.size) = 0) :=
  mix_read_aligned c4wbuf 8 (fun _ => 0) (by decide) (by decide) (by decide)
    (by decide) (by decide) (by decide) (by decide)

/-- Buffer as bluealsa_mix_buffer_init builds it for format S16_2LE, 2
channels, buffer_frames 32 (16 periods), period_frames 2: size =
(32 + 1) * 2 = 66 samples, period = 2 * 2 = 4 samples. -/
def c4bugBuf : MixBuffer :=
  { format := .s16_2le, channels := 2, frame_size := 4, size := 66, period := 4,
    mix_offset := 0, endOff := 0, data := fun _ => 0 }

/-- The playback multi holding that buffer (period_bytes = 2 frames * 4
bytes = 8). -/
def c4bugMulti : MultiC :=
  { mode := .sink, active_count := 0, period_bytes := 8, playback_buffer := c4bugBuf }

/-- An idle playback client that has buffered 18 bytes, which exceeds the
client start threshold BLUEALSA_MULTI_CLIENT_THRESHOLD * period_bytes = 16,
so bluealsa_pcm_client_handle_playback_pcm moves it to Running. -/
def c4bugClient : Client :=
  { state := .idle, in_offset := 18, out_offset := 0, drain_avail := SIZE_MAX,
    buffer_size := 24, drop := false, watch := true, pcm_open := true,
    control_open := true, drain_armed := false, replies := [] }

/-- The cursor set_state assigns on entering Running: minus
bluealsa_pcm_client_playback_init_offset = -(4 * 4 - 18 * 2 / 4) = -7,
sample-misaligned because the 18 buffered bytes hold a partial trailing
frame that the division by frame_size counts at sample granularity. -/
def c4bugOffset : Int :=
  (bluealsa_pcm_client_set_state c4bugMulti c4bugClient .running).2.out_offset

/-- The client's 18 buffered bytes added to the mix at that cursor: samples
7..14 are written and end becomes 15, an odd (channel-misaligned) value. -/
def c4bugAdd : AddResult := bluealsa_mix_buffer_add c4bugBuf c4bugOffset (fun _ => 0) 18

/-- First period read from the mix (4 samples requested). -/
def c4bugRead1 : ReadResult := bluealsa_mix_buffer_read c4bugAdd.buffer 4 (fun _ => 0)

/-- Second period read. -/
def c4bugRead2 : ReadResult := bluealsa_mix_buffer_read c4bugRead1.buffer 4 (fun _ => 0)

/-- Third period read, leaving mix_offset = 12 with 3 samples available. -/
def c4bugRead3 : ReadResult := bluealsa_mix_buffer_read c4bugRead2.buffer 4 (fun _ => 0)

/-- Fourth period read: avail = 15 - 12 = 3 clips the request to 3 samples,
not a whole number of stereo frames. -/
def c4bugRead4 : ReadResult := bluealsa_mix_buffer_read c4bugRead3.buffer 4 (fun _ => 0)

set_option maxRecDepth 8192 in
/-- C4 fails on a reachable state: evaluating the model on the trace above
(playback client enters Running with 18 bytes buffered, its 18 bytes are
added to the mix, three period reads drain 12 of the 15 samples), the
fourth bluealsa_mix_buffer_read returns 3 samples — not a whole number of
2-channel frames — and advances mix_offset from 12 to 16, i.e. by 4, not
by the returned count: the per-frame loop runs ceil(3 / 2) = 2 iterations
and rounds the final partial frame up.  This contradicts the claim and the
function's own documentation ("This is always complete frames"). -/
theorem c4_read_bug :
    c4bugOffset = -7 ∧
    c4bugAdd.buffer.endOff = 15 ∧
    ¬ c4bugBuf.channels ∣ c4bugAdd.buffer.endOff ∧
    c4bugRead3.buffer.mix_offset = 12 ∧
    c4bugRead4.ret = 3 ∧
    ¬ c4bugBuf.channels ∣ c4bugRead4.ret ∧
    c4bugRead4.buffer.mix_offset = 16 ∧
    bluealsa_mix_buffer_calc_avail c4bugRead3.buffer c4bugRead3.buffer.mix_offset
      c4bugRead4.buffer.mix_offset = 4 :=
  ⟨by decide, by decide, by decide, by decide, by decide, by decide, by decide, by decide⟩

end BlueAlsa
